import Mathlib

/-!
Verification development for the settings form controller of the
rancher-ai-ui repository.

The definitions below are a shallow embedding of the TypeScript source:
  - pages/settings/types.ts (Settings keys, ValidationStatus)
  - pages/settings/sections/AIAgentSettings.vue (form controller)
  - composables/useChatApiComposable.ts (fetchLLMModels abort logic)
  - pages/settings/Settings.vue (save pipeline)

Asynchronous behaviour (model fetches, abort controllers, debounced
edits) is embedded as an explicit event-step machine on a component
state record; each event corresponds to one atomic run-to-completion
segment of the single-threaded UI event loop.
-/

/-- The four LLM providers, mirroring the LLMProvider enum
(imported as ChatBotEnum in AIAgentSettings.vue). -/
inductive ChatBot
  | Local
  | OpenAI
  | Gemini
  | Bedrock
deriving DecidableEq, Repr

/-- Modelled from the spec: the string values of the LLMProvider enum live in
src/pkg/rancher-ai-ui/types.ts which is not part of the provided sources.
Spec section 8 uses ACTIVE_LLM:"BEDROCK" as a value naming the Bedrock
provider, and getModelKey in AIAgentSettings.vue concatenates the
upper-cased value with _MODEL to reach OLLAMA_MODEL and friends, so the
values are taken to be the upper-case strings below.  Every theorem in
this file is insensitive to the casing choice: the only facts used are
that the four values are pairwise distinct, non-empty, and upper-case to
the OLLAMA, OPENAI, GEMINI, BEDROCK model-key prefixes. -/
def providerString : ChatBot → String
  | .Local => "OLLAMA"
  | .OpenAI => "OPENAI"
  | .Gemini => "GEMINI"
  | .Bedrock => "BEDROCK"

/-- Validation status enumeration from pages/settings/types.ts. -/
inductive ValidationStatus
  | idle
  | validating
  | success
  | error
deriving DecidableEq, Repr

/-- Settings keys from the Settings enum in pages/settings/types.ts. -/
inductive SettingsKey
  | GOOGLE_API_KEY
  | LANGFUSE_HOST
  | LANGFUSE_PUBLIC_KEY
  | LANGFUSE_SECRET_KEY
  | OLLAMA_MODEL
  | GEMINI_MODEL
  | OPENAI_MODEL
  | BEDROCK_MODEL
  | OLLAMA_URL
  | OPENAI_THIRD_PARTY_URL
  | OPENAI_API_KEY
  | ACTIVE_CHATBOT
  | AWS_REGION
  | AWS_BEARER_TOKEN_BEDROCK
deriving DecidableEq, Repr

/-- String value of each Settings enum member (pages/settings/types.ts). -/
def settingsKeyName : SettingsKey → String
  | .GOOGLE_API_KEY => "GOOGLE_API_KEY"
  | .LANGFUSE_HOST => "LANGFUSE_HOST"
  | .LANGFUSE_PUBLIC_KEY => "LANGFUSE_PUBLIC_KEY"
  | .LANGFUSE_SECRET_KEY => "LANGFUSE_SECRET_KEY"
  | .OLLAMA_MODEL => "OLLAMA_MODEL"
  | .GEMINI_MODEL => "GEMINI_MODEL"
  | .OPENAI_MODEL => "OPENAI_MODEL"
  | .BEDROCK_MODEL => "BEDROCK_MODEL"
  | .OLLAMA_URL => "OLLAMA_URL"
  | .OPENAI_THIRD_PARTY_URL => "OPENAI_URL"
  | .OPENAI_API_KEY => "OPENAI_API_KEY"
  | .ACTIVE_CHATBOT => "ACTIVE_LLM"
  | .AWS_REGION => "AWS_REGION"
  | .AWS_BEARER_TOKEN_BEDROCK => "AWS_BEARER_TOKEN_BEDROCK"

/-- All Settings enum members, in declaration order. -/
def allSettingsKeys : List SettingsKey :=
  [.GOOGLE_API_KEY, .LANGFUSE_HOST, .LANGFUSE_PUBLIC_KEY, .LANGFUSE_SECRET_KEY,
   .OLLAMA_MODEL, .GEMINI_MODEL, .OPENAI_MODEL, .BEDROCK_MODEL,
   .OLLAMA_URL, .OPENAI_THIRD_PARTY_URL, .OPENAI_API_KEY, .ACTIVE_CHATBOT,
   .AWS_REGION, .AWS_BEARER_TOKEN_BEDROCK]

/-- Reverse lookup of a Settings member from its string value, modelling
the indexed access Settings[name] used by getModelKey. -/
def settingsKeyOfName (s : String) : Option SettingsKey :=
  allSettingsKeys.find? (fun k => settingsKeyName k == s)

/-- A settings form record.  In the TypeScript source this is a partial
string record; an absent key and the empty string are both falsy in every
read the controller performs, so fields are total here with the empty
string standing for an absent key. -/
structure SettingsFormData where
  googleApiKey : String
  langfuseHost : String
  langfusePublicKey : String
  langfuseSecretKey : String
  ollamaModel : String
  geminiModel : String
  openaiModel : String
  bedrockModel : String
  ollamaUrl : String
  openaiThirdPartyUrl : String
  openaiApiKey : String
  activeLLM : String
  awsRegion : String
  awsBearerTokenBedrock : String
deriving DecidableEq, Repr

/-- Read the field of a form record addressed by a Settings key. -/
def getField (f : SettingsFormData) : SettingsKey → String
  | .GOOGLE_API_KEY => f.googleApiKey
  | .LANGFUSE_HOST => f.langfuseHost
  | .LANGFUSE_PUBLIC_KEY => f.langfusePublicKey
  | .LANGFUSE_SECRET_KEY => f.langfuseSecretKey
  | .OLLAMA_MODEL => f.ollamaModel
  | .GEMINI_MODEL => f.geminiModel
  | .OPENAI_MODEL => f.openaiModel
  | .BEDROCK_MODEL => f.bedrockModel
  | .OLLAMA_URL => f.ollamaUrl
  | .OPENAI_THIRD_PARTY_URL => f.openaiThirdPartyUrl
  | .OPENAI_API_KEY => f.openaiApiKey
  | .ACTIVE_CHATBOT => f.activeLLM
  | .AWS_REGION => f.awsRegion
  | .AWS_BEARER_TOKEN_BEDROCK => f.awsBearerTokenBedrock

/-- Write the field of a form record addressed by a Settings key. -/
def setField (f : SettingsFormData) : SettingsKey → String → SettingsFormData
  | .GOOGLE_API_KEY, v => { f with googleApiKey := v }
  | .LANGFUSE_HOST, v => { f with langfuseHost := v }
  | .LANGFUSE_PUBLIC_KEY, v => { f with langfusePublicKey := v }
  | .LANGFUSE_SECRET_KEY, v => { f with langfuseSecretKey := v }
  | .OLLAMA_MODEL, v => { f with ollamaModel := v }
  | .GEMINI_MODEL, v => { f with geminiModel := v }
  | .OPENAI_MODEL, v => { f with openaiModel := v }
  | .BEDROCK_MODEL, v => { f with bedrockModel := v }
  | .OLLAMA_URL, v => { f with ollamaUrl := v }
  | .OPENAI_THIRD_PARTY_URL, v => { f with openaiThirdPartyUrl := v }
  | .OPENAI_API_KEY, v => { f with openaiApiKey := v }
  | .ACTIVE_CHATBOT, v => { f with activeLLM := v }
  | .AWS_REGION, v => { f with awsRegion := v }
  | .AWS_BEARER_TOKEN_BEDROCK, v => { f with awsBearerTokenBedrock := v }

/-- The form record with every field empty. -/
def emptyForm : SettingsFormData :=
  ⟨"", "", "", "", "", "", "", "", "", "", "", "", "", ""⟩

/-- Active provider resolution, from getActiveChatbot in
AIAgentSettings.vue: an explicit ACTIVE_LLM value matching one of the
four providers wins; otherwise fall back on which credential is filled,
in the order Bedrock token, OpenAI key, Gemini key, Ollama URL; default
to Local. -/
def getActiveChatbot (value : SettingsFormData) : ChatBot :=
  match [ChatBot.Gemini, ChatBot.OpenAI, ChatBot.Local, ChatBot.Bedrock].find?
      (fun c => providerString c == value.activeLLM) with
  | some existingChatbot => existingChatbot
  | none =>
    if value.awsBearerTokenBedrock ≠ "" then ChatBot.Bedrock
    else if value.openaiApiKey ≠ "" then ChatBot.OpenAI
    else if value.googleApiKey ≠ "" then ChatBot.Gemini
    else if value.ollamaUrl ≠ "" then ChatBot.Local
    else ChatBot.Local

/-- The model-field key of a provider, as produced by getModelKey in
AIAgentSettings.vue on the four provider values. -/
def modelKey : ChatBot → SettingsKey
  | .Local => .OLLAMA_MODEL
  | .OpenAI => .OPENAI_MODEL
  | .Gemini => .GEMINI_MODEL
  | .Bedrock => .BEDROCK_MODEL

/-- ASCII upper-casing of one character, as toUpperCase acts on the
ASCII provider and key strings this code handles. -/
def jsToUpperChar (c : Char) : Char :=
  if 'a' ≤ c ∧ c ≤ 'z' then Char.ofNat (c.toNat - 32) else c

/-- ASCII upper-casing of a string (toUpperCase on its ASCII inputs). -/
def jsToUpper (s : String) : String :=
  String.mk (s.data.map jsToUpperChar)

/-- String-level model-key lookup, mirroring getModelKey of
AIAgentSettings.vue: Settings[chatbot.toUpperCase() + "_MODEL"],
which is undefined (none) for a string that is not a provider value. -/
def getModelKey (chatbot : String) : Option SettingsKey :=
  settingsKeyOfName (jsToUpper chatbot ++ "_MODEL")

/-- Read updatedForm[getModelKey(chatbot)]: an undefined key or an
undefined lookup result is falsy, rendered here as the empty string. -/
def modelFieldByName (f : SettingsFormData) (chatbot : String) : String :=
  match getModelKey chatbot with
  | some k => getField f k
  | none => ""

/-- Settings validator from validateSettings in AIAgentSettings.vue:
switch on the active chatbot value checking the required credential, then
require the active model field; the boolean is emitted to the parent via
update:validation-error. -/
def validateSettings (updatedForm : SettingsFormData) : Bool :=
  let chatbot := updatedForm.activeLLM
  let credError : Bool :=
    if chatbot = providerString .Local then updatedForm.ollamaUrl = ""
    else if chatbot = providerString .OpenAI then updatedForm.openaiApiKey = ""
    else if chatbot = providerString .Gemini then updatedForm.googleApiKey = ""
    else if chatbot = providerString .Bedrock then
      updatedForm.awsBearerTokenBedrock = "" ∨ updatedForm.awsRegion = ""
    else false
  credError || modelFieldByName updatedForm chatbot = ""

/-- Per-provider async validation record, from the modelValidation ref in
AIAgentSettings.vue. -/
structure ModelValidationPayload where
  status : ValidationStatus
  message : String
  touched : Bool
deriving DecidableEq, Repr

/-- Partial payload accepted by updateModelValidation; none stands for an
absent property. -/
structure UpdatePayload where
  status : Option ValidationStatus
  message : Option String
  touched : Option Bool
deriving DecidableEq, Repr

/-- State update of updateModelValidation in AIAgentSettings.vue:
status falls back to the current status, message falls back to the EMPTY
string (payload.message with a JS or-else of the empty string), touched
falls back to the current touched flag. -/
def updateModelValidation (cur : ModelValidationPayload) (payload : UpdatePayload) :
    ModelValidationPayload :=
  { status := payload.status.getD cur.status
    message := payload.message.getD ""
    touched := payload.touched.getD cur.touched }

/-- The modelValidation record, one payload per provider. -/
structure ValidationMap where
  ollamaV : ModelValidationPayload
  openaiV : ModelValidationPayload
  geminiV : ModelValidationPayload
  bedrockV : ModelValidationPayload
deriving DecidableEq, Repr

/-- Read the validation payload of a provider. -/
def getVal (m : ValidationMap) : ChatBot → ModelValidationPayload
  | .Local => m.ollamaV
  | .OpenAI => m.openaiV
  | .Gemini => m.geminiV
  | .Bedrock => m.bedrockV

/-- Write the validation payload of a provider. -/
def setVal (m : ValidationMap) : ChatBot → ModelValidationPayload → ValidationMap
  | .Local, p => { m with ollamaV := p }
  | .OpenAI, p => { m with openaiV := p }
  | .Gemini, p => { m with geminiV := p }
  | .Bedrock, p => { m with bedrockV := p }

/-- The models cache (models ref in AIAgentSettings.vue): none models an
absent entry (never fetched), some xs a fetched (possibly empty) list. -/
structure ModelsMap where
  ollamaM : Option (List String)
  openaiM : Option (List String)
  geminiM : Option (List String)
  bedrockM : Option (List String)
deriving DecidableEq, Repr

/-- Read the cached model list of a provider. -/
def getModels (m : ModelsMap) : ChatBot → Option (List String)
  | .Local => m.ollamaM
  | .OpenAI => m.openaiM
  | .Gemini => m.geminiM
  | .Bedrock => m.bedrockM

/-- Write the cached model list of a provider. -/
def setModels (m : ModelsMap) : ChatBot → Option (List String) → ModelsMap
  | .Local, v => { m with ollamaM := v }
  | .OpenAI, v => { m with openaiM := v }
  | .Gemini, v => { m with geminiM := v }
  | .Bedrock, v => { m with bedrockM := v }

/-- One outstanding call of fetchLLMModels: the request id doubles as the
identity of the AbortController created for the call; aborted records that
a later call invoked abort() on that controller, completed that the
promise has settled. -/
structure Request where
  rid : Nat
  chatb : ChatBot
  url : String
  bearerToken : String
  region : String
  aborted : Bool
  completed : Bool
deriving DecidableEq, Repr

/-- The optional options argument of fetchModels; none means the property
was not supplied so the current form value is used. -/
structure FetchOverrides where
  url : Option String
  bearerToken : Option String
  region : Option String
deriving DecidableEq, Repr

/-- Empty options record (a fetchModels call with default options). -/
def noOverrides : FetchOverrides := ⟨none, none, none⟩

/-- State of one mounted AIAgentSettings component together with the
fetchLLMModels bookkeeping of its useChatApiComposable instance.  The form
field is the formData computed view (active chatbot normalised); valueEmits
counts update:value emissions; emittedValidation is the last value emitted
through update:validation-error; current is the id of the live
AbortController of fetchLLMModels; the pending fields hold the argument of
a debounced edit whose timer has not fired yet. -/
structure ComponentState where
  form : SettingsFormData
  models : ModelsMap
  validation : ValidationMap
  requests : List Request
  nextId : Nat
  current : Option Nat
  emittedValidation : Option Bool
  valueEmits : Nat
  pendingOllama : Option String
  pendingBedrockToken : Option String
  pendingBedrockRegion : Option String
deriving DecidableEq, Repr

/-- JS string or-else: the left operand unless it is falsy (empty). -/
def jsOr (a b : String) : String := if a = "" then b else a

/-- The expression models.value[chatbot]?.[0] read as a string: empty when
the cache entry is absent or the list empty. -/
def firstModel (entry : Option (List String)) : String :=
  ((entry.getD []).head?).getD ""

/-- Normalisation applied by the formData computed property: the active
chatbot entry is replaced by the resolved provider. -/
def normalizeForm (f : SettingsFormData) : SettingsFormData :=
  setField f .ACTIVE_CHATBOT (providerString (getActiveChatbot f))

/-- Find a request by id. -/
def findRequest (rs : List Request) (rid : Nat) : Option Request :=
  rs.find? (fun r => r.rid == rid)

/-- Mark the request of a given id aborted and completed (its fetch
promise rejects with AbortError, which the caller handles at once). -/
def markAbortedCompleted (rs : List Request) (rid : Nat) : List Request :=
  rs.map (fun r => if r.rid == rid then { r with aborted := true, completed := true } else r)

/-- Mark the request of a given id completed (its promise settled). -/
def markCompleted (rs : List Request) (rid : Nat) : List Request :=
  rs.map (fun r => if r.rid == rid then { r with completed := true } else r)

/-- Emit update:validation-error with the validator result on a form. -/
def emitValidation (st : ComponentState) (f : SettingsFormData) : ComponentState :=
  { st with emittedValidation := some (validateSettings f) }

/-- Form reconciliation from updateFormConfig in AIAgentSettings.vue: a
truthy candidate model (current field value, or else first fetched model)
is written back to the model field only while the provider status is
success; otherwise the field is rewritten with its current value. -/
def updateFormConfig (chatbot : ChatBot) (st : ComponentState) : ComponentState :=
  let mk := modelKey chatbot
  let cur := getField st.form mk
  let modelField := jsOr cur (firstModel (getModels st.models chatbot))
  if modelField ≠ "" then
    if (getVal st.validation chatbot).status = ValidationStatus.success then
      { st with form := setField st.form mk modelField }
    else
      { st with form := setField st.form mk cur }
  else st

/-- Value update from updateValue in AIAgentSettings.vue: clone the form
view, apply the change, emit update:value (the parent echoes it into the
value prop, so the form view becomes the normalised record), then run the
validator on the un-normalised clone and emit its result. -/
def updateValue (key : SettingsKey) (val : String) (st : ComponentState) : ComponentState :=
  let newValue := setField st.form key val
  { st with form := normalizeForm newValue
            valueEmits := st.valueEmits + 1
            emittedValidation := some (validateSettings newValue) }

/-- Mark a provider validation record touched, via
updateModelValidation(key, { touched: true }), which also resets the
message to the empty string. -/
def touchValidation (chatbot : ChatBot) (st : ComponentState) : ComponentState :=
  let newPayload := updateModelValidation (getVal st.validation chatbot) ⟨none, none, some true⟩
  { st with validation := setVal st.validation chatbot newPayload }

/-- The provider-specific options bag built at the top of fetchModels:
Local takes a url override or the current OLLAMA_URL, Bedrock takes token
and region overrides or the current form values, the key-based providers
take nothing. -/
def computeRequest (chatbot : ChatBot) (ov : FetchOverrides) (f : SettingsFormData)
    (rid : Nat) : Request :=
  match chatbot with
  | .Local => ⟨rid, chatbot, ov.url.getD f.ollamaUrl, "", "", false, false⟩
  | .Bedrock => ⟨rid, chatbot, "", ov.bearerToken.getD f.awsBearerTokenBedrock,
      ov.region.getD f.awsRegion, false, false⟩
  | _ => ⟨rid, chatbot, "", "", "", false, false⟩

/-- The AbortError branch of fetchModels for a provider whose request was
just cancelled: status is set back to validating with an empty message,
then the shared tail of fetchModels runs (validator emission on the
projected form, and updateFormConfig, which leaves the form unchanged
because the status is not success). -/
def abortCatch (chatbot : ChatBot) (st : ComponentState) : ComponentState :=
  let vPayload := updateModelValidation (getVal st.validation chatbot) ⟨some .validating, none, none⟩
  let st1 := { st with validation := setVal st.validation chatbot vPayload }
  let mk := modelKey chatbot
  let projected := setField st1.form mk
      (jsOr (firstModel (getModels st1.models chatbot)) (getField st1.form mk))
  let st2 := emitValidation st1 projected
  updateFormConfig chatbot st2

/-- Entry of fetchModels up to and including the suspension on
fetchLLMModels: the options bag is computed, the cache entry for the
provider is reset to the empty list, its status set to validating, then
fetchLLMModels aborts the previous AbortController (whatever provider it
served) and registers a fresh one; if the aborted call was still pending,
its rejection handler (the AbortError branch) runs before any later
response can. -/
def issueFetch (chatbot : ChatBot) (ov : FetchOverrides) (st : ComponentState) :
    ComponentState :=
  let st1 := { st with models := setModels st.models chatbot (some []) }
  let vPayload := updateModelValidation (getVal st1.validation chatbot) ⟨some .validating, none, none⟩
  let st2 := { st1 with validation := setVal st1.validation chatbot vPayload }
  let req := computeRequest chatbot ov st2.form st2.nextId
  let st3 := { st2 with requests := st2.requests ++ [req]
                        current := some st2.nextId
                        nextId := st2.nextId + 1 }
  match st.current with
  | some orid =>
    match findRequest st.requests orid with
    | some r =>
      if r.aborted = false ∧ r.completed = false then
        let st4 := { st3 with requests := markAbortedCompleted st3.requests orid }
        abortCatch r.chatb st4
      else st3
    | none => st3
  | none => st3

/-- Successful settlement of a live request: the model list is stored, the
status set to success, the validator re-run on the form projected with the
first fetched model as default, and updateFormConfig adopts that default
when the model field is empty. -/
def resolveFetch (rid : Nat) (ms : List String) (st : ComponentState) : ComponentState :=
  match findRequest st.requests rid with
  | some r =>
    if r.aborted = false ∧ r.completed = false then
      let chatbot := r.chatb
      let st1 := { st with requests := markCompleted st.requests rid
                           models := setModels st.models chatbot (some ms) }
      let sPayload := updateModelValidation (getVal st1.validation chatbot) ⟨some .success, none, none⟩
      let st2 := { st1 with validation := setVal st1.validation chatbot sPayload }
      let mk := modelKey chatbot
      let projected := setField st2.form mk (jsOr (firstModel (some ms)) (getField st2.form mk))
      let st3 := emitValidation st2 projected
      updateFormConfig chatbot st3
    else st
  | none => st

/-- Fallback message t(aiConfig.form.validation.failed) substituted when
the thrown error carries an empty message. -/
def defaultFailMessage : String := "aiConfig.form.validation.failed"

/-- Hard failure of a live request (any rejection other than AbortError):
status becomes error with the extracted message (or the fallback text),
the model field is cleared when the record is touched, then the shared
tail of fetchModels runs. -/
def failFetch (rid : Nat) (msg : String) (st : ComponentState) : ComponentState :=
  match findRequest st.requests rid with
  | some r =>
    if r.aborted = false ∧ r.completed = false then
      let chatbot := r.chatb
      let st1 := { st with requests := markCompleted st.requests rid }
      let ePayload := updateModelValidation (getVal st1.validation chatbot)
          ⟨some .error, some (jsOr msg defaultFailMessage), none⟩
      let st2 := { st1 with validation := setVal st1.validation chatbot ePayload }
      let st3 :=
        if (getVal st2.validation chatbot).touched then
          { st2 with form := setField st2.form (modelKey chatbot) "" }
        else st2
      let mk := modelKey chatbot
      let projected := setField st3.form mk
          (jsOr (firstModel (getModels st3.models chatbot)) (getField st3.form mk))
      let st4 := emitValidation st3 projected
      updateFormConfig chatbot st4
    else st
  | none => st

/-- Provider switch from updateChatbotValue in AIAgentSettings.vue: the
value is updated immediately, and a fetch is issued only when the cache
entry for the chosen provider is absent. -/
def updateChatbotValue (val : ChatBot) (st : ComponentState) : ComponentState :=
  let st1 := updateValue .ACTIVE_CHATBOT (providerString val) st
  match getModels st1.models val with
  | none => issueFetch val noOverrides st1
  | some _ => st1

/-- Trailing edge of the debounced updateOllamaUrlValue: update the value,
mark Local touched, fetch Local models with the url override. -/
def flushOllamaUrl (st : ComponentState) : ComponentState :=
  match st.pendingOllama with
  | none => st
  | some v =>
    let st0 := { st with pendingOllama := none }
    let st1 := updateValue .OLLAMA_URL v st0
    let st2 := touchValidation .Local st1
    issueFetch .Local ⟨some v, none, none⟩ st2

/-- Trailing edge of the debounced updateBedrockTokenValue. -/
def flushBedrockToken (st : ComponentState) : ComponentState :=
  match st.pendingBedrockToken with
  | none => st
  | some v =>
    let st0 := { st with pendingBedrockToken := none }
    let st1 := updateValue .AWS_BEARER_TOKEN_BEDROCK v st0
    let st2 := touchValidation .Bedrock st1
    issueFetch .Bedrock ⟨none, some v, none⟩ st2

/-- Trailing edge of the debounced updateBedrockRegion: after emitting
the new value, the fetch is guarded on the region read back from the
formData view.  The update:value echo through the parent lands only on
the next scheduler flush, so this read still sees the region from BEFORE
this invocation (the source comment confirms the intent: skip the fetch
when the region was empty, since the credentials are likely not filled). -/
def flushBedrockRegion (st : ComponentState) : ComponentState :=
  match st.pendingBedrockRegion with
  | none => st
  | some v =>
    let st0 := { st with pendingBedrockRegion := none }
    let st1 := updateValue .AWS_REGION v st0
    if st.form.awsRegion ≠ "" then
      issueFetch .Bedrock ⟨none, none, some v⟩ (touchValidation .Bedrock st1)
    else st1

/-- Refresh link handler refreshModels: mark the active provider touched
and fetch its models with default options. -/
def refreshModels (st : ComponentState) : ComponentState :=
  match [ChatBot.Gemini, ChatBot.OpenAI, ChatBot.Local, ChatBot.Bedrock].find?
      (fun c => providerString c == st.form.activeLLM) with
  | some p => issueFetch p noOverrides (touchValidation p st)
  | none => st

/-- One run-to-completion segment of the UI event loop, as observed at the
boundary of the component. -/
inductive Event
  | issue (chatbot : ChatBot) (ov : FetchOverrides)
  | resolve (rid : Nat) (ms : List String)
  | fail (rid : Nat) (msg : String)
  | selectChatbot (chatbot : ChatBot)
  | typeOllama (v : String)
  | flushOllama
  | typeBedrockToken (v : String)
  | flushBedrockTokenEv
  | typeBedrockRegion (v : String)
  | flushBedrockRegionEv
  | editField (key : SettingsKey) (v : String)
  | refresh
deriving Repr

/-- Step function of the component machine. -/
def step (st : ComponentState) : Event → ComponentState
  | .issue chatbot ov => issueFetch chatbot ov st
  | .resolve rid ms => resolveFetch rid ms st
  | .fail rid msg => failFetch rid msg st
  | .selectChatbot chatbot => updateChatbotValue chatbot st
  | .typeOllama v => { st with pendingOllama := some v }
  | .flushOllama => flushOllamaUrl st
  | .typeBedrockToken v => { st with pendingBedrockToken := some v }
  | .flushBedrockTokenEv => flushBedrockToken st
  | .typeBedrockRegion v => { st with pendingBedrockRegion := some v }
  | .flushBedrockRegionEv => flushBedrockRegion st
  | .editField key v => updateValue key v st
  | .refresh => refreshModels st

/-- Run a list of events from a state. -/
def run (st : ComponentState) (es : List Event) : ComponentState :=
  es.foldl step st

/-- Component state right after setup: the form view is the normalised
value prop, no cache entries, every provider initialised to a validating
status with empty message and untouched, no requests. -/
def initState (f0 : SettingsFormData) : ComponentState :=
  { form := normalizeForm f0
    models := ⟨none, none, none, none⟩
    validation :=
      ⟨⟨.validating, "", false⟩, ⟨.validating, "", false⟩,
       ⟨.validating, "", false⟩, ⟨.validating, "", false⟩⟩
    requests := []
    nextId := 0
    current := none
    emittedValidation := none
    valueEmits := 0
    pendingOllama := none
    pendingBedrockToken := none
    pendingBedrockRegion := none }

/-- The create permissions consulted by the save pipeline in Settings.vue. -/
structure SavePerms where
  canCreateSecrets : Bool
  canCreateAiAgentCRDS : Bool
deriving DecidableEq, Repr

/-- Whether each awaited sub-operation of save succeeds.  settingsOk is
saveSettings (which rethrows its failure); authSecretsOk and crdsOk are
the unwrapped store dispatches of saveAiAgentConfigAuthenticationSecrets
and saveAiAgentConfigCRDs; redeployOk is the body of redeployAiAgent,
which catches its own failures and only logs them. -/
structure SaveOutcomes where
  settingsOk : Bool
  authSecretsOk : Bool
  crdsOk : Bool
  redeployOk : Bool
deriving DecidableEq, Repr

/-- The externally visible sub-operations of the save pipeline. -/
inductive SaveAction
  | persistSettings
  | persistAuthSecrets
  | persistCRDs
  | redeploy
deriving DecidableEq, Repr

/-- Observable outcome of one save call: the attempted sub-operations in
execution order (an attempt that throws is still listed), the number of
error banners surfaced through apiError, and the boolean passed to the
async button callback. -/
structure SaveResult where
  actions : List SaveAction
  errorsSurfaced : Nat
  succeeded : Bool
deriving DecidableEq, Repr

/-- The save pipeline of Settings.vue: settings are persisted only with
secret-create permission; auth secrets and config CRDs additionally
require CRD-create permission; redeployAiAgent always runs afterwards and
swallows its own failure; the single try/catch around the pipeline sets
apiError once and reports failure to the button callback. -/
def save (perms : SavePerms) (o : SaveOutcomes) : SaveResult :=
  if perms.canCreateSecrets then
    if o.settingsOk then
      if perms.canCreateAiAgentCRDS then
        if o.authSecretsOk then
          if o.crdsOk then
            ⟨[.persistSettings, .persistAuthSecrets, .persistCRDs, .redeploy], 0, true⟩
          else
            ⟨[.persistSettings, .persistAuthSecrets, .persistCRDs], 1, false⟩
        else
          ⟨[.persistSettings, .persistAuthSecrets], 1, false⟩
      else
        ⟨[.persistSettings, .redeploy], 0, true⟩
    else
      ⟨[.persistSettings], 1, false⟩
  else
    ⟨[], 0, true⟩

theorem getField_setField (f : SettingsFormData) (k kq : SettingsKey) (v : String) :
    getField (setField f k v) kq = if kq = k then v else getField f kq := by
  cases k <;> cases kq <;> simp [getField, setField]

theorem setField_self (f : SettingsFormData) (k : SettingsKey) :
    setField f k (getField f k) = f := by
  cases k <;> rfl

theorem gac_matches (f : SettingsFormData) (p : ChatBot)
    (h : f.activeLLM = providerString p) : getActiveChatbot f = p := by
  cases p <;> (unfold getActiveChatbot; rw [h]; rfl)

theorem gac_fallback (f : SettingsFormData)
    (h : ∀ q, f.activeLLM ≠ providerString q) :
    getActiveChatbot f =
      (if f.awsBearerTokenBedrock ≠ "" then ChatBot.Bedrock
       else if f.openaiApiKey ≠ "" then ChatBot.OpenAI
       else if f.googleApiKey ≠ "" then ChatBot.Gemini
       else if f.ollamaUrl ≠ "" then ChatBot.Local
       else ChatBot.Local) := by
  unfold getActiveChatbot
  have hfind : [ChatBot.Gemini, ChatBot.OpenAI, ChatBot.Local, ChatBot.Bedrock].find?
      (fun c => providerString c == f.activeLLM) = none := by
    rw [List.find?_eq_none]
    intro c _
    simp only [beq_eq_false_iff_ne, ne_eq, beq_iff_eq]
    exact fun hc => h c hc.symm
  rw [hfind]

/-- Claim C2: getActiveChatbot returns a valid ACTIVE_LLM value unchanged;
otherwise it picks the first provider with a non-empty credential in the
order Bedrock bearer token, OpenAI key, Gemini key, Ollama URL, and
defaults to Local; on the record with only an OpenAI key and a Gemini key
it returns OpenAI. -/
theorem claimC2_getActiveChatbot :
    (∀ (f : SettingsFormData) (p : ChatBot),
      f.activeLLM = providerString p → getActiveChatbot f = p) ∧
    (∀ f : SettingsFormData, (∀ q, f.activeLLM ≠ providerString q) →
      getActiveChatbot f =
        (if f.awsBearerTokenBedrock ≠ "" then ChatBot.Bedrock
         else if f.openaiApiKey ≠ "" then ChatBot.OpenAI
         else if f.googleApiKey ≠ "" then ChatBot.Gemini
         else if f.ollamaUrl ≠ "" then ChatBot.Local
         else ChatBot.Local)) ∧
    getActiveChatbot { emptyForm with openaiApiKey := "sk-x", googleApiKey := "g-x" }
      = ChatBot.OpenAI :=
  ⟨gac_matches, gac_fallback, by decide⟩

/-- Witness for claim C2 at two concrete records: a stored GEMINI value is
returned unchanged, and the empty record resolves to Local. -/
theorem claimC2_witness :
    getActiveChatbot { emptyForm with activeLLM := "GEMINI" } = ChatBot.Gemini ∧
    getActiveChatbot emptyForm = ChatBot.Local := by
  constructor
  · exact claimC2_getActiveChatbot.1 _ ChatBot.Gemini rfl
  · have h := claimC2_getActiveChatbot.2.1 emptyForm (fun q => by cases q <;> decide)
    simpa using h

/-- Claim C9: getActiveChatbot is a pure function of its argument (its
embedding is a function, so equal inputs give equal outputs), and writing
its own result into ACTIVE_LLM of the original record leaves the result
unchanged. -/
theorem claimC9_idempotent (f : SettingsFormData) :
    getActiveChatbot f = getActiveChatbot f ∧
    getActiveChatbot (setField f .ACTIVE_CHATBOT (providerString (getActiveChatbot f)))
      = getActiveChatbot f :=
  ⟨rfl, gac_matches _ _ rfl⟩

/-- Bedrock example form with only the bearer token set. -/
def bedrockPartialForm : SettingsFormData :=
  { emptyForm with activeLLM := "BEDROCK", awsBearerTokenBedrock := "t" }

/-- Bedrock example form with token, region and model set. -/
def bedrockFullForm : SettingsFormData :=
  { bedrockPartialForm with awsRegion := "us-east-1", bedrockModel := "anthropic.claude-3" }

/-- Claim C6: for a record whose active entry names provider p,
validateSettings reports an error exactly when the required credential of
p is empty (Local the URL, OpenAI the key, Gemini the key, Bedrock token
and region) or the model field of p is empty; the Bedrock record with only
a token errors, and stops erroring once region and model are filled. -/
theorem claimC6_validateSettings :
    (∀ (f : SettingsFormData) (p : ChatBot), f.activeLLM = providerString p →
      (validateSettings f = true ↔
        ((match p with
          | ChatBot.Local => f.ollamaUrl = ""
          | ChatBot.OpenAI => f.openaiApiKey = ""
          | ChatBot.Gemini => f.googleApiKey = ""
          | ChatBot.Bedrock => f.awsBearerTokenBedrock = "" ∨ f.awsRegion = "") ∨
         getField f (modelKey p) = ""))) ∧
    validateSettings bedrockPartialForm = true ∧
    validateSettings bedrockFullForm = false := by
  refine ⟨?_, by decide, by decide⟩
  intro f p h
  cases p <;>
    simp [validateSettings, modelFieldByName, h, providerString, modelKey,
      show getModelKey "OLLAMA" = some SettingsKey.OLLAMA_MODEL from by decide,
      show getModelKey "OPENAI" = some SettingsKey.OPENAI_MODEL from by decide,
      show getModelKey "GEMINI" = some SettingsKey.GEMINI_MODEL from by decide,
      show getModelKey "BEDROCK" = some SettingsKey.BEDROCK_MODEL from by decide,
      getField]

/-- Complete Ollama example record used by the C6 witness. -/
def ollamaOkForm : SettingsFormData :=
  { emptyForm with activeLLM := "OLLAMA", ollamaUrl := "http://localhost:11434",
                   ollamaModel := "gpt-oss" }

/-- Witness for claim C6: a Local record with URL and model filled
validates cleanly, by the equivalence instantiated at that record. -/
theorem claimC6_witness : validateSettings ollamaOkForm = false := by
  have h := claimC6_validateSettings.1 ollamaOkForm ChatBot.Local rfl
  simp [ollamaOkForm, getField, emptyForm, modelKey] at h
  simpa using h

theorem updateFormConfig_async (chatbot : ChatBot) (st : ComponentState) :
    (updateFormConfig chatbot st).requests = st.requests ∧
    (updateFormConfig chatbot st).current = st.current ∧
    (updateFormConfig chatbot st).nextId = st.nextId ∧
    (updateFormConfig chatbot st).models = st.models ∧
    (updateFormConfig chatbot st).validation = st.validation := by
  unfold updateFormConfig
  dsimp only
  split
  · split <;> exact ⟨rfl, rfl, rfl, rfl, rfl⟩
  · exact ⟨rfl, rfl, rfl, rfl, rfl⟩

theorem abortCatch_async (chatbot : ChatBot) (st : ComponentState) :
    (abortCatch chatbot st).requests = st.requests ∧
    (abortCatch chatbot st).current = st.current ∧
    (abortCatch chatbot st).nextId = st.nextId ∧
    (abortCatch chatbot st).models = st.models := by
  unfold abortCatch emitValidation
  dsimp only
  have h := updateFormConfig_async chatbot
  refine ⟨?_, ?_, ?_, ?_⟩
  · rw [(h _).1]
  · rw [(h _).2.1]
  · rw [(h _).2.2.1]
  · rw [(h _).2.2.2.1]

/-- Request ids are exactly 0 .. nextId - 1 in issue order. -/
def ReqIds (st : ComponentState) : Prop :=
  st.requests.map Request.rid = List.range st.nextId

/-- Every request that is neither aborted nor completed is the one the
live AbortController belongs to. -/
def LiveCurrent (st : ComponentState) : Prop :=
  ∀ r ∈ st.requests, r.aborted = false → r.completed = false → st.current = some r.rid

/-- Bookkeeping invariant of the fetch machinery. -/
def ReqInv (st : ComponentState) : Prop := ReqIds st ∧ LiveCurrent st

theorem markAbortedCompleted_rid (rs : List Request) (rid : Nat) :
    (markAbortedCompleted rs rid).map Request.rid = rs.map Request.rid := by
  unfold markAbortedCompleted
  rw [List.map_map]
  congr 1
  funext r
  by_cases h : r.rid == rid <;> simp [h, Function.comp]

theorem markCompleted_rid (rs : List Request) (rid : Nat) :
    (markCompleted rs rid).map Request.rid = rs.map Request.rid := by
  unfold markCompleted
  rw [List.map_map]
  congr 1
  funext r
  by_cases h : r.rid == rid <;> simp [h, Function.comp]

theorem reqIds_nodup {st : ComponentState} (h : ReqIds st) :
    (st.requests.map Request.rid).Nodup := by
  rw [h]; exact List.nodup_range _

theorem reqIds_lt {st : ComponentState} (h : ReqIds st) :
    ∀ r ∈ st.requests, r.rid < st.nextId := by
  intro r hr
  have : r.rid ∈ st.requests.map Request.rid := List.mem_map_of_mem _ hr
  rw [h] at this
  exact List.mem_range.1 this

theorem computeRequest_rid (chatbot : ChatBot) (ov : FetchOverrides)
    (f : SettingsFormData) (n : Nat) : (computeRequest chatbot ov f n).rid = n := by
  cases chatbot <;> rfl

theorem computeRequest_live (chatbot : ChatBot) (ov : FetchOverrides)
    (f : SettingsFormData) (n : Nat) :
    (computeRequest chatbot ov f n).aborted = false ∧
    (computeRequest chatbot ov f n).completed = false := by
  cases chatbot <;> exact ⟨rfl, rfl⟩

theorem reqInv_congr {s1 s2 : ComponentState}
    (hr : s1.requests = s2.requests) (hc : s1.current = s2.current)
    (hn : s1.nextId = s2.nextId) (h : ReqInv s2) : ReqInv s1 := by
  obtain ⟨hids, hlive⟩ := h
  constructor
  · unfold ReqIds; rw [hr, hn]; exact hids
  · intro r hrm hab hcomp
    rw [hr] at hrm
    rw [hc]
    exact hlive r hrm hab hcomp

theorem reqInv_issueFetch {st : ComponentState} (h : ReqInv st)
    (chatbot : ChatBot) (ov : FetchOverrides) : ReqInv (issueFetch chatbot ov st) := by
  obtain ⟨hids, hlive⟩ := h
  have hnodup : (st.requests.map Request.rid).Nodup := by
    rw [hids]; exact List.nodup_range _
  unfold issueFetch
  dsimp only
  have hreq := computeRequest_rid chatbot ov st.form st.nextId
  have hreqlive := computeRequest_live chatbot ov st.form st.nextId
  set req := computeRequest chatbot ov st.form st.nextId with hreqdef
  have happides : (st.requests ++ [req]).map Request.rid = List.range (st.nextId + 1) := by
    rw [List.map_append, hids, List.range_succ]
    simp [hreq]
  split
  · -- st.current = some orid
    next orid heq =>
    split
    · -- findRequest st.requests orid = some r0
      next r0 hfind =>
      split
      · -- r0 live: the previous controller is aborted and its catch runs
        next hr0live =>
        refine reqInv_congr (abortCatch_async _ _).1 (abortCatch_async _ _).2.1
          (abortCatch_async _ _).2.2.1 ?_
        constructor
        · unfold ReqIds
          dsimp only
          rw [markAbortedCompleted_rid]
          exact happides
        · intro r hrm hab hcomp
          dsimp only at hrm ⊢
          rcases List.mem_map.1 hrm with ⟨x, hx, hgx⟩
          by_cases hxr : (x.rid == orid) = true
          · rw [if_pos hxr] at hgx
            rw [← hgx] at hab
            simp at hab
          · rw [if_neg hxr] at hgx
            subst hgx
            rcases List.mem_append.1 hx with hold | hnew
            · have := hlive x hold hab hcomp
              rw [heq] at this
              have : x.rid = orid := by injection this with hh; exact hh.symm
              exact absurd (by simpa using this) hxr
            · have : x = req := by simpa using hnew
              subst this
              simp [hreq]
      · next hr0dead =>
        constructor
        · unfold ReqIds
          exact happides
        · intro r hrm hab hcomp
          rcases List.mem_append.1 hrm with hold | hnew
          · have := hlive r hold hab hcomp
            rw [heq] at this
            have hridr : r.rid = orid := by
              injection this with hh; exact hh.symm
            have hr0mem := List.mem_of_find?_eq_some hfind
            have hr0rid : r0.rid = orid := by
              have := List.find?_some hfind
              simpa using this
            have : r = r0 := by
              apply List.inj_on_of_nodup_map hnodup hold hr0mem
              rw [hridr, hr0rid]
            subst this
            exact absurd ⟨hab, hcomp⟩ hr0dead
          · have : r = req := by simpa using hnew
            subst this
            simp [hreq]
    · -- findRequest st.requests orid = none
      next hfind =>
      constructor
      · unfold ReqIds
        exact happides
      · intro r hrm hab hcomp
        rcases List.mem_append.1 hrm with hold | hnew
        · have := hlive r hold hab hcomp
          rw [heq] at this
          have hridr : r.rid = orid := by
            injection this with hh; exact hh.symm
          have := List.find?_eq_none.1 hfind r hold
          simp [findRequest] at hfind
          exact absurd (by simpa [hridr] using rfl : (r.rid == orid) = true) (by simpa using this)
        · have : r = req := by simpa using hnew
          subst this
          simp [hreq]
  · -- st.current = none
    next heq =>
    constructor
    · unfold ReqIds
      exact happides
    · intro r hrm hab hcomp
      rcases List.mem_append.1 hrm with hold | hnew
      · have := hlive r hold hab hcomp
        rw [heq] at this
        exact absurd this (by simp)
      · have : r = req := by simpa using hnew
        subst this
        simp [hreq]

theorem reqInv_resolveFetch {st : ComponentState} (h : ReqInv st)
    (rid : Nat) (ms : List String) : ReqInv (resolveFetch rid ms st) := by
  obtain ⟨hids, hlive⟩ := h
  unfold resolveFetch
  split
  · next r0 hfind =>
    split
    · next hr0live =>
      refine reqInv_congr (updateFormConfig_async _ _).1 (updateFormConfig_async _ _).2.1
        (updateFormConfig_async _ _).2.2.1 ?_
      unfold emitValidation
      constructor
      · unfold ReqIds
        dsimp only
        rw [markCompleted_rid]
        exact hids
      · intro r hrm hab hcomp
        dsimp only at hrm ⊢
        rcases List.mem_map.1 hrm with ⟨x, hx, hgx⟩
        by_cases hxr : (x.rid == rid) = true
        · rw [if_pos hxr] at hgx
          rw [← hgx] at hcomp
          simp at hcomp
        · rw [if_neg hxr] at hgx
          subst hgx
          exact hlive x hx hab hcomp
    · exact ⟨hids, hlive⟩
  · exact ⟨hids, hlive⟩

theorem reqInv_failFetch {st : ComponentState} (h : ReqInv st)
    (rid : Nat) (msg : String) : ReqInv (failFetch rid msg st) := by
  obtain ⟨hids, hlive⟩ := h
  unfold failFetch
  split
  · next r0 hfind =>
    split
    · next hr0live =>
      refine reqInv_congr (updateFormConfig_async _ _).1 (updateFormConfig_async _ _).2.1
        (updateFormConfig_async _ _).2.2.1 ?_
      unfold emitValidation
      have hbase : ReqInv
          { st with requests := markCompleted st.requests rid } := by
        constructor
        · unfold ReqIds
          dsimp only
          rw [markCompleted_rid]
          exact hids
        · intro r hrm hab hcomp
          dsimp only at hrm ⊢
          rcases List.mem_map.1 hrm with ⟨x, hx, hgx⟩
          by_cases hxr : (x.rid == rid) = true
          · rw [if_pos hxr] at hgx
            rw [← hgx] at hcomp
            simp at hcomp
          · rw [if_neg hxr] at hgx
            subst hgx
            exact hlive x hx hab hcomp
      split
      · exact reqInv_congr rfl rfl rfl hbase
      · exact reqInv_congr rfl rfl rfl hbase
    · exact ⟨hids, hlive⟩
  · exact ⟨hids, hlive⟩

theorem reqInv_updateValue {st : ComponentState} (h : ReqInv st)
    (k : SettingsKey) (v : String) : ReqInv (updateValue k v st) :=
  reqInv_congr rfl rfl rfl h

theorem reqInv_touch {st : ComponentState} (h : ReqInv st)
    (chatbot : ChatBot) : ReqInv (touchValidation chatbot st) :=
  reqInv_congr rfl rfl rfl h

theorem reqInv_step {st : ComponentState} (h : ReqInv st) (e : Event) :
    ReqInv (step st e) := by
  cases e with
  | issue chatbot ov => exact reqInv_issueFetch h chatbot ov
  | resolve rid ms => exact reqInv_resolveFetch h rid ms
  | fail rid msg => exact reqInv_failFetch h rid msg
  | selectChatbot chatbot =>
    simp only [step, updateChatbotValue]
    split
    · exact reqInv_issueFetch (reqInv_updateValue h _ _) chatbot noOverrides
    · exact reqInv_updateValue h _ _
  | typeOllama v => exact reqInv_congr rfl rfl rfl h
  | flushOllama =>
    simp only [step, flushOllamaUrl]
    split
    · exact h
    · next v hv =>
      have h0 : ReqInv { st with pendingOllama := none } := reqInv_congr rfl rfl rfl h
      exact reqInv_issueFetch (reqInv_touch (reqInv_updateValue h0 _ _) _) _ _
  | typeBedrockToken v => exact reqInv_congr rfl rfl rfl h
  | flushBedrockTokenEv =>
    simp only [step, flushBedrockToken]
    split
    · exact h
    · next v hv =>
      have h0 : ReqInv { st with pendingBedrockToken := none } := reqInv_congr rfl rfl rfl h
      exact reqInv_issueFetch (reqInv_touch (reqInv_updateValue h0 _ _) _) _ _
  | typeBedrockRegion v => exact reqInv_congr rfl rfl rfl h
  | flushBedrockRegionEv =>
    simp only [step, flushBedrockRegion]
    split
    · exact h
    · next v hv =>
      have h0 : ReqInv { st with pendingBedrockRegion := none } := reqInv_congr rfl rfl rfl h
      split
      · exact reqInv_issueFetch (reqInv_touch (reqInv_updateValue h0 _ _) _) _ _
      · exact reqInv_updateValue h0 _ _
  | editField k v => exact reqInv_updateValue h k v
  | refresh =>
    simp only [step, refreshModels]
    split
    · exact reqInv_issueFetch (reqInv_touch h _) _ _
    · exact h

theorem reqInv_initState (f0 : SettingsFormData) : ReqInv (initState f0) := by
  constructor
  · rfl
  · intro r hr _ _
    simp [initState] at hr

theorem reqInv_run (st : ComponentState) (h : ReqInv st) (es : List Event) :
    ReqInv (run st es) := by
  induction es generalizing st with
  | nil => exact h
  | cons e es ih => exact ih (step st e) (reqInv_step h e)

theorem atMostOneLive {st : ComponentState} (h : ReqInv st) :
    (st.requests.filter (fun r => !r.aborted && !r.completed)).length ≤ 1 := by
  obtain ⟨hids, hlive⟩ := h
  have hnodupr : st.requests.Nodup :=
    List.Nodup.of_map _ (by rw [hids]; exact List.nodup_range _)
  have hfilnodup : (st.requests.filter (fun r => !r.aborted && !r.completed)).Nodup :=
    List.Nodup.filter _ hnodupr
  have hnodupmap : (st.requests.map Request.rid).Nodup := by
    rw [hids]; exact List.nodup_range _
  match hm : st.requests.filter (fun r => !r.aborted && !r.completed) with
  | [] => simp [hm]
  | [a] => simp [hm]
  | a :: b :: t =>
    exfalso
    have hmem : ∀ x ∈ a :: b :: t, x ∈ st.requests ∧ x.aborted = false ∧ x.completed = false := by
      intro x hx
      rw [← hm] at hx
      have h1 := List.mem_of_mem_filter hx
      have h2 := List.of_mem_filter hx
      simp at h2
      exact ⟨h1, h2.1, h2.2⟩
    obtain ⟨hamem, haab, hacomp⟩ := hmem a (by simp)
    obtain ⟨hbmem, hbab, hbcomp⟩ := hmem b (by simp)
    have hca := hlive a hamem haab hacomp
    have hcb := hlive b hbmem hbab hbcomp
    have hrid : a.rid = b.rid := by
      rw [hca] at hcb
      injection hcb with hh
    have hab2 : a = b := List.inj_on_of_nodup_map hnodupmap hamem hbmem hrid
    rw [hm] at hfilnodup
    rcases List.nodup_cons.1 hfilnodup with ⟨hanotin, _⟩
    exact hanotin (by rw [hab2]; simp)

theorem findRequest_issueFetch {st : ComponentState} {orid : Nat} {r : Request}
    (heq : st.current = some orid) (hfind : findRequest st.requests orid = some r)
    (hab : r.aborted = false) (hcomp : r.completed = false)
    (chatbot : ChatBot) (ov : FetchOverrides) :
    findRequest (issueFetch chatbot ov st).requests orid
      = some { r with aborted := true, completed := true } := by
  have hrrid : (r.rid == orid) = true := by
    have := List.find?_some hfind
    simpa [findRequest] using this
  unfold issueFetch
  dsimp only
  rw [heq]
  dsimp only
  rw [hfind]
  dsimp only
  rw [if_pos ⟨hab, hcomp⟩]
  rw [(abortCatch_async _ _).1]
  dsimp only
  unfold findRequest markAbortedCompleted
  rw [List.find?_map]
  have hpg : ((fun rq => rq.rid == orid) ∘
      (fun rq => if rq.rid == orid then { rq with aborted := true, completed := true } else rq))
      = (fun rq : Request => rq.rid == orid) := by
    funext x
    by_cases hx : x.rid = orid <;> simp [hx]
  rw [hpg]
  rw [List.find?_append]
  have hfr : List.find? (fun rq => rq.rid == orid) st.requests = some r := hfind
  rw [hfr]
  have hr2 : r.rid = orid := by simpa using hrrid
  simp [hr2]

/-- Claim C1 (amended): a response or failure of a superseded (aborted)
request leaves the state untouched, so a stale response never overwrites
newer state; a new fetch supersedes the previously pending request
whatever provider it was issued for; and in every reachable state at most
one request is neither aborted nor completed. -/
theorem claimC1_supersession :
    (∀ (st : ComponentState) (rid : Nat) (ms : List String) (msg : String) (r : Request),
      findRequest st.requests rid = some r → r.aborted = true →
      resolveFetch rid ms st = st ∧ failFetch rid msg st = st) ∧
    (∀ (st : ComponentState) (chatbot : ChatBot) (ov : FetchOverrides)
        (orid : Nat) (r : Request),
      st.current = some orid → findRequest st.requests orid = some r →
      r.aborted = false → r.completed = false →
      findRequest (issueFetch chatbot ov st).requests orid
        = some { r with aborted := true, completed := true }) ∧
    (∀ (f0 : SettingsFormData) (es : List Event),
      (((run (initState f0) es).requests.filter
        (fun r => !r.aborted && !r.completed)).length ≤ 1)) := by
  refine ⟨?_, ?_, ?_⟩
  · intro st rid ms msg r hfind hab
    constructor
    · unfold resolveFetch
      rw [hfind]
      dsimp only
      rw [if_neg (by simp [hab])]
    · unfold failFetch
      rw [hfind]
      dsimp only
      rw [if_neg (by simp [hab])]
  · intro st chatbot ov orid r heq hfind hab hcomp
    exact findRequest_issueFetch heq hfind hab hcomp chatbot ov
  · intro f0 es
    exact atMostOneLive (reqInv_run _ (reqInv_initState f0) es)

/-- Trace of claim C1: a Local fetch followed by a Bedrock fetch. -/
def c1Trace : ComponentState :=
  run (initState emptyForm) [.issue .Local noOverrides, .issue .Bedrock noOverrides]

/-- Counterexample to claim C1 as stated: issuing a Bedrock fetch while a
Local fetch is pending aborts the Local request, although the two fetches
are for different providers, so distinct providers cannot stay pending
concurrently and supersession is not restricted to the same provider. -/
theorem claimC1_counterexample :
    findRequest c1Trace.requests 0
      = some ⟨0, ChatBot.Local, "", "", "", true, true⟩ ∧
    findRequest c1Trace.requests 1
      = some ⟨1, ChatBot.Bedrock, "", "", "", false, false⟩ := by
  constructor <;> decide

/-- Witness for claim C1, applying the theorem on the concrete trace: the
aborted Local request resolving late does not change the state, and in
the trace state at most one request is live. -/
theorem claimC1_witness :
    resolveFetch 0 ["stale-model"] c1Trace = c1Trace ∧
    ((run (initState emptyForm) [.issue .Local noOverrides, .issue .Bedrock noOverrides]).requests.filter
      (fun r => !r.aborted && !r.completed)).length ≤ 1 := by
  constructor
  · exact (claimC1_supersession.1 c1Trace 0 ["stale-model"] "" ⟨0, ChatBot.Local, "", "", "", true, true⟩
      (by decide) rfl).1
  · exact claimC1_supersession.2.2 emptyForm [.issue .Local noOverrides, .issue .Bedrock noOverrides]

theorem getVal_setVal_same (m : ValidationMap) (p : ChatBot) (x : ModelValidationPayload) :
    getVal (setVal m p x) p = x := by
  cases p <;> rfl

theorem updateFormConfig_form_nonsuccess {st : ComponentState} {c : ChatBot}
    (h : (getVal st.validation c).status ≠ ValidationStatus.success) :
    (updateFormConfig c st).form = st.form := by
  unfold updateFormConfig
  dsimp only
  rw [if_neg h]
  split
  · dsimp only
    rw [setField_self]
  · rfl

theorem abortCatch_form (c : ChatBot) (st : ComponentState) :
    (abortCatch c st).form = st.form := by
  unfold abortCatch
  dsimp only
  rw [updateFormConfig_form_nonsuccess]
  · rfl
  · dsimp only [emitValidation]
    rw [getVal_setVal_same]
    simp [updateModelValidation]

theorem abortCatch_validation (c : ChatBot) (st : ComponentState) :
    getVal (abortCatch c st).validation c
      = { status := ValidationStatus.validating, message := ""
          touched := (getVal st.validation c).touched } := by
  unfold abortCatch
  dsimp only
  rw [(updateFormConfig_async _ _).2.2.2.2]
  dsimp only [emitValidation]
  rw [getVal_setVal_same]
  rfl

theorem failFetch_spec {st : ComponentState} {rid : Nat} {msg : String} {r : Request}
    (hfind : findRequest st.requests rid = some r)
    (hab : r.aborted = false) (hcomp : r.completed = false) :
    getVal (failFetch rid msg st).validation r.chatb
      = { status := ValidationStatus.error, message := jsOr msg defaultFailMessage
          touched := (getVal st.validation r.chatb).touched } ∧
    (failFetch rid msg st).form
      = (if (getVal st.validation r.chatb).touched then
           setField st.form (modelKey r.chatb) "" else st.form) := by
  unfold failFetch
  rw [hfind]
  dsimp only
  rw [if_pos ⟨hab, hcomp⟩]
  constructor
  · rw [(updateFormConfig_async _ _).2.2.2.2]
    dsimp only [emitValidation]
    split <;> (rw [getVal_setVal_same]; simp [updateModelValidation])
  · rw [updateFormConfig_form_nonsuccess]
    · dsimp only [emitValidation]
      split
      · next htouch =>
        rw [if_pos (by simpa [getVal_setVal_same, updateModelValidation] using htouch)]
      · next htouch =>
        rw [if_neg (by simpa [getVal_setVal_same, updateModelValidation] using htouch)]
    · dsimp only [emitValidation]
      split <;> (rw [getVal_setVal_same]; simp [updateModelValidation])

/-- Claim C3: when a model fetch fails because it was superseded
(AbortError), the validation record of the superseded provider is left at
validating with its message cleared and the form (hence the selected
model value) is untouched; on a hard failure the status becomes error
with the message extracted from the response body (or the fallback text
when that message is empty), and the model value of the provider is
cleared exactly when its validation record was touched. -/
theorem claimC3_failureHandling :
    (∀ (st : ComponentState) (chatbot : ChatBot) (ov : FetchOverrides)
        (orid : Nat) (r : Request),
      st.current = some orid → findRequest st.requests orid = some r →
      r.aborted = false → r.completed = false →
      ((getVal (issueFetch chatbot ov st).validation r.chatb).status
          = ValidationStatus.validating ∧
       (getVal (issueFetch chatbot ov st).validation r.chatb).message = "" ∧
       (issueFetch chatbot ov st).form = st.form)) ∧
    (∀ (st : ComponentState) (rid : Nat) (msg : String) (r : Request),
      findRequest st.requests rid = some r →
      r.aborted = false → r.completed = false →
      ((getVal (failFetch rid msg st).validation r.chatb).status
          = ValidationStatus.error ∧
       (getVal (failFetch rid msg st).validation r.chatb).message
          = (if msg = "" then defaultFailMessage else msg) ∧
       (getVal (failFetch rid msg st).validation r.chatb).touched
          = (getVal st.validation r.chatb).touched ∧
       (failFetch rid msg st).form
          = (if (getVal st.validation r.chatb).touched then
               setField st.form (modelKey r.chatb) "" else st.form))) := by
  constructor
  · intro st chatbot ov orid r heq hfind hab hcomp
    unfold issueFetch
    dsimp only
    rw [heq]
    dsimp only
    rw [hfind]
    dsimp only
    rw [if_pos ⟨hab, hcomp⟩]
    refine ⟨?_, ?_, ?_⟩
    · rw [abortCatch_validation]
    · rw [abortCatch_validation]
    · rw [abortCatch_form]
  · intro st rid msg r hfind hab hcomp
    obtain ⟨hval, hform⟩ := failFetch_spec hfind hab hcomp
    refine ⟨?_, ?_, ?_, hform⟩
    · rw [hval]
    · rw [hval, jsOr]
    · rw [hval]

/-- Trace of claim C3: a Bedrock fetch, its request marked touched,
failing with a message from the response body. -/
def c3Trace : ComponentState :=
  run (initState bedrockFullForm) [.issue .Bedrock noOverrides]

/-- Witness for claim C3 on a concrete state: superseding the pending
Bedrock request with a Local fetch leaves Bedrock validating with an
empty message and the form intact, and a hard failure of the pending
request sets an error status with the extracted message while the
untouched model value is preserved. -/
theorem claimC3_witness :
    (getVal (issueFetch ChatBot.Local noOverrides c3Trace).validation ChatBot.Bedrock).status
      = ValidationStatus.validating ∧
    (issueFetch ChatBot.Local noOverrides c3Trace).form = c3Trace.form ∧
    (getVal (failFetch 0 "bad credentials" c3Trace).validation ChatBot.Bedrock).message
      = "bad credentials" ∧
    (failFetch 0 "bad credentials" c3Trace).form = c3Trace.form := by
  have hfind : findRequest c3Trace.requests 0
      = some ⟨0, ChatBot.Bedrock, "", "t", "us-east-1", false, false⟩ := by decide
  have h1 := claimC3_failureHandling.1 c3Trace ChatBot.Local noOverrides 0
    ⟨0, ChatBot.Bedrock, "", "t", "us-east-1", false, false⟩ (by decide) hfind rfl rfl
  have h2 := claimC3_failureHandling.2 c3Trace 0 "bad credentials"
    ⟨0, ChatBot.Bedrock, "", "t", "us-east-1", false, false⟩ hfind rfl rfl
  refine ⟨h1.1, h1.2.2, ?_, ?_⟩
  · rw [h2.2.1]
    decide
  · rw [h2.2.2.2]
    have : (getVal c3Trace.validation ChatBot.Bedrock).touched = false := by decide
    rw [this]
    simp

theorem getModels_setModels_same (m : ModelsMap) (p : ChatBot) (v : Option (List String)) :
    getModels (setModels m p v) p = v := by
  cases p <;> rfl

/-- While a request is live, the cache entry of its provider is the empty
list written when the fetch was issued. -/
def LiveModels (st : ComponentState) : Prop :=
  ∀ r ∈ st.requests, r.aborted = false → r.completed = false →
    getModels st.models r.chatb = some []

/-- Full reachability invariant of the fetch machinery. -/
def FullInv (st : ComponentState) : Prop := ReqInv st ∧ LiveModels st

theorem liveModels_congr {s1 s2 : ComponentState}
    (hr : s1.requests = s2.requests) (hm : s1.models = s2.models)
    (h : LiveModels s2) : LiveModels s1 := by
  intro r hrm hab hcomp
  rw [hr] at hrm
  rw [hm]
  exact h r hrm hab hcomp

theorem liveModels_issueFetch {st : ComponentState} (hinv : ReqInv st)
    (h : LiveModels st) (chatbot : ChatBot) (ov : FetchOverrides) :
    LiveModels (issueFetch chatbot ov st) := by
  obtain ⟨hids, hlive⟩ := hinv
  unfold issueFetch
  dsimp only
  have hreq := computeRequest_rid chatbot ov st.form st.nextId
  set req := computeRequest chatbot ov st.form st.nextId with hreqdef
  have hreqchatb : req.chatb = chatbot := by
    rw [hreqdef]; cases chatbot <;> rfl
  split
  · next orid heq =>
    split
    · next r0 hfind =>
      split
      · next hr0live =>
        refine liveModels_congr (abortCatch_async _ _).1 (abortCatch_async _ _).2.2.2 ?_
        intro r hrm hab hcomp
        dsimp only at hrm ⊢
        rcases List.mem_map.1 hrm with ⟨x, hx, hgx⟩
        by_cases hxr : (x.rid == orid) = true
        · rw [if_pos hxr] at hgx
          rw [← hgx] at hab
          simp at hab
        · rw [if_neg hxr] at hgx
          subst hgx
          rcases List.mem_append.1 hx with hold | hnew
          · have := hlive x hold hab hcomp
            rw [heq] at this
            have : x.rid = orid := by injection this with hh; exact hh.symm
            exact absurd (by simpa using this) hxr
          · have : x = req := by simpa using hnew
            subst this
            rw [hreqchatb, getModels_setModels_same]
      · next hr0dead =>
        intro r hrm hab hcomp
        dsimp only at hrm ⊢
        rcases List.mem_append.1 hrm with hold | hnew
        · have hcur := hlive r hold hab hcomp
          rw [heq] at hcur
          have hridr : r.rid = orid := by injection hcur with hh; exact hh.symm
          have hr0mem := List.mem_of_find?_eq_some hfind
          have hr0rid : r0.rid = orid := by
            have := List.find?_some hfind
            simpa using this
          have hnodup : (st.requests.map Request.rid).Nodup := by
            rw [hids]; exact List.nodup_range _
          have : r = r0 := by
            apply List.inj_on_of_nodup_map hnodup hold hr0mem
            rw [hridr, hr0rid]
          subst this
          exact absurd ⟨hab, hcomp⟩ hr0dead
        · have : r = req := by simpa using hnew
          subst this
          rw [hreqchatb, getModels_setModels_same]
    · next hfind =>
      intro r hrm hab hcomp
      dsimp only at hrm ⊢
      rcases List.mem_append.1 hrm with hold | hnew
      · have hcur := hlive r hold hab hcomp
        rw [heq] at hcur
        have hridr : r.rid = orid := by injection hcur with hh; exact hh.symm
        have := List.find?_eq_none.1 hfind r hold
        exact absurd (by simpa using hridr) (by simpa using this)
      · have : r = req := by simpa using hnew
        subst this
        rw [hreqchatb, getModels_setModels_same]
  · next heq =>
    intro r hrm hab hcomp
    dsimp only at hrm ⊢
    rcases List.mem_append.1 hrm with hold | hnew
    · have := hlive r hold hab hcomp
      rw [heq] at this
      exact absurd this (by simp)
    · have : r = req := by simpa using hnew
      subst this
      rw [hreqchatb, getModels_setModels_same]

theorem noLive_markCompleted {st : ComponentState} (hinv : ReqInv st)
    {rid : Nat} {r0 : Request} (hfind : findRequest st.requests rid = some r0)
    (hr0live : r0.aborted = false ∧ r0.completed = false) :
    ∀ x ∈ markCompleted st.requests rid, x.aborted = false → x.completed = false → False := by
  obtain ⟨hids, hlive⟩ := hinv
  intro x hx hab hcomp
  rcases List.mem_map.1 hx with ⟨y, hy, hgy⟩
  by_cases hyr : (y.rid == rid) = true
  · rw [if_pos hyr] at hgy
    rw [← hgy] at hcomp
    simp at hcomp
  · rw [if_neg hyr] at hgy
    rw [← hgy] at hab hcomp
    have hcurx := hlive y hy hab hcomp
    have hcur0 := hlive r0 (List.mem_of_find?_eq_some hfind) hr0live.1 hr0live.2
    have hr0rid : r0.rid = rid := by
      have := List.find?_some hfind
      simpa using this
    rw [hcur0] at hcurx
    have hyrid : y.rid = r0.rid := by
      injection hcurx with hh
      exact hh.symm
    rw [hr0rid] at hyrid
    exact absurd (by simpa using hyrid) hyr

theorem liveModels_resolveFetch {st : ComponentState} (hinv : ReqInv st)
    (h : LiveModels st) (rid : Nat) (ms : List String) :
    LiveModels (resolveFetch rid ms st) := by
  unfold resolveFetch
  split
  · next r0 hfind =>
    split
    · next hr0live =>
      refine liveModels_congr (updateFormConfig_async _ _).1
        (updateFormConfig_async _ _).2.2.2.1 ?_
      dsimp only [emitValidation]
      intro r hrm hab hcomp
      exact (noLive_markCompleted hinv hfind hr0live r hrm hab hcomp).elim
    · exact h
  · exact h

theorem liveModels_failFetch {st : ComponentState} (hinv : ReqInv st)
    (h : LiveModels st) (rid : Nat) (msg : String) :
    LiveModels (failFetch rid msg st) := by
  unfold failFetch
  split
  · next r0 hfind =>
    split
    · next hr0live =>
      refine liveModels_congr (updateFormConfig_async _ _).1
        (updateFormConfig_async _ _).2.2.2.1 ?_
      dsimp only [emitValidation]
      intro r hrm hab hcomp
      split at hrm <;>
        exact (noLive_markCompleted hinv hfind hr0live r hrm hab hcomp).elim
    · exact h
  · exact h

theorem fullInv_step {st : ComponentState} (h : FullInv st) (e : Event) :
    FullInv (step st e) := by
  obtain ⟨hreq, hlm⟩ := h
  refine ⟨reqInv_step hreq e, ?_⟩
  cases e with
  | issue chatbot ov => exact liveModels_issueFetch hreq hlm chatbot ov
  | resolve rid ms => exact liveModels_resolveFetch hreq hlm rid ms
  | fail rid msg => exact liveModels_failFetch hreq hlm rid msg
  | selectChatbot chatbot =>
    simp only [step, updateChatbotValue]
    split
    · exact liveModels_issueFetch (reqInv_updateValue hreq _ _)
        (liveModels_congr rfl rfl hlm) chatbot noOverrides
    · exact liveModels_congr rfl rfl hlm
  | typeOllama v => exact liveModels_congr rfl rfl hlm
  | flushOllama =>
    simp only [step, flushOllamaUrl]
    split
    · exact hlm
    · next v hv =>
      have h0 : ReqInv { st with pendingOllama := none } := reqInv_congr rfl rfl rfl hreq
      exact liveModels_issueFetch (reqInv_touch (reqInv_updateValue h0 _ _) _)
        (liveModels_congr rfl rfl hlm) _ _
  | typeBedrockToken v => exact liveModels_congr rfl rfl hlm
  | flushBedrockTokenEv =>
    simp only [step, flushBedrockToken]
    split
    · exact hlm
    · next v hv =>
      have h0 : ReqInv { st with pendingBedrockToken := none } := reqInv_congr rfl rfl rfl hreq
      exact liveModels_issueFetch (reqInv_touch (reqInv_updateValue h0 _ _) _)
        (liveModels_congr rfl rfl hlm) _ _
  | typeBedrockRegion v => exact liveModels_congr rfl rfl hlm
  | flushBedrockRegionEv =>
    simp only [step, flushBedrockRegion]
    split
    · exact hlm
    · next v hv =>
      have h0 : ReqInv { st with pendingBedrockRegion := none } := reqInv_congr rfl rfl rfl hreq
      split
      · exact liveModels_issueFetch (reqInv_touch (reqInv_updateValue h0 _ _) _)
          (liveModels_congr rfl rfl hlm) _ _
      · exact liveModels_congr rfl rfl hlm
  | editField k v => exact liveModels_congr rfl rfl hlm
  | refresh =>
    simp only [step, refreshModels]
    split
    · exact liveModels_issueFetch (reqInv_touch hreq _) (liveModels_congr rfl rfl hlm) _ _
    · exact hlm

theorem fullInv_initState (f0 : SettingsFormData) : FullInv (initState f0) := by
  refine ⟨reqInv_initState f0, ?_⟩
  intro r hr _ _
  simp [initState] at hr

theorem fullInv_run (st : ComponentState) (h : FullInv st) (es : List Event) :
    FullInv (run st es) := by
  induction es generalizing st with
  | nil => exact h
  | cons e es ih => exact ih (step st e) (fullInv_step h e)

theorem validateSettings_setModel_congr (f : SettingsFormData) (c : ChatBot)
    (a b : String) (hab : (a = "") ↔ (b = "")) :
    validateSettings (setField f (modelKey c) a)
      = validateSettings (setField f (modelKey c) b) := by
  have hdec : (decide (a = "")) = (decide (b = "")) := by
    by_cases ha : a = "" <;> by_cases hb : b = "" <;> simp [ha, hb] at hab ⊢
  cases c <;>
  · unfold validateSettings modelFieldByName
    dsimp only [modelKey, setField]
    rcases hk : getModelKey f.activeLLM with _ | k
    · rfl
    · cases k <;> simp [getField, hdec]

theorem updateFormConfig_emitted (c : ChatBot) (st : ComponentState) :
    (updateFormConfig c st).emittedValidation = st.emittedValidation := by
  unfold updateFormConfig
  dsimp only
  split
  · split <;> rfl
  · rfl

theorem updateFormConfig_form_success {st : ComponentState} {c : ChatBot}
    (h : (getVal st.validation c).status = ValidationStatus.success) :
    (updateFormConfig c st).form
      = (if jsOr (getField st.form (modelKey c)) (firstModel (getModels st.models c)) ≠ ""
         then setField st.form (modelKey c)
            (jsOr (getField st.form (modelKey c)) (firstModel (getModels st.models c)))
         else st.form) := by
  unfold updateFormConfig
  dsimp only
  rw [if_pos h]
  split <;> rfl

theorem updfc_success_spec (s2 : ComponentState) (c : ChatBot) (ms : List String)
    (hv : (getVal s2.validation c).status = ValidationStatus.success)
    (hm : getModels s2.models c = some ms)
    (he : s2.emittedValidation = some (validateSettings
      (setField s2.form (modelKey c)
        (jsOr (firstModel (some ms)) (getField s2.form (modelKey c)))))) :
    (getField s2.form (modelKey c) ≠ "" →
       (updateFormConfig c s2).form = s2.form) ∧
    (getField s2.form (modelKey c) = "" →
       getField (updateFormConfig c s2).form (modelKey c) = firstModel (some ms)) ∧
    (getVal (updateFormConfig c s2).validation c).status = ValidationStatus.success ∧
    getModels (updateFormConfig c s2).models c = some ms ∧
    (updateFormConfig c s2).emittedValidation
      = some (validateSettings (updateFormConfig c s2).form) := by
  have hform := updateFormConfig_form_success hv
  rw [hm] at hform
  refine ⟨?_, ?_, ?_, ?_, ?_⟩
  · intro hcur
    rw [hform]
    rw [if_pos (by simp [jsOr, hcur])]
    rw [show jsOr (getField s2.form (modelKey c)) (firstModel (some ms))
        = getField s2.form (modelKey c) from by simp [jsOr, hcur]]
    exact setField_self s2.form (modelKey c)
  · intro hcur
    rw [hform]
    by_cases hfm : firstModel (some ms) = ""
    · rw [if_neg (by simp [jsOr, hcur, hfm])]
      rw [hcur, hfm]
    · rw [if_pos (by simp [jsOr, hcur, hfm])]
      rw [getField_setField]
      simp [jsOr, hcur]
  · rw [(updateFormConfig_async _ _).2.2.2.2]
    exact hv
  · rw [(updateFormConfig_async _ _).2.2.2.1]
    exact hm
  · rw [updateFormConfig_emitted, he, hform]
    by_cases hcur : getField s2.form (modelKey c) = ""
    · by_cases hfm : firstModel (some ms) = ""
      · rw [if_neg (by simp [jsOr, hcur, hfm])]
        rw [show jsOr (firstModel (some ms)) (getField s2.form (modelKey c))
            = getField s2.form (modelKey c) from by simp [jsOr, hcur, hfm]]
        rw [setField_self]
      · rw [if_pos (by simp [jsOr, hcur, hfm])]
        rw [show jsOr (firstModel (some ms)) (getField s2.form (modelKey c))
            = firstModel (some ms) from by simp [jsOr, hfm]]
        rw [show jsOr (getField s2.form (modelKey c)) (firstModel (some ms))
            = firstModel (some ms) from by simp [jsOr, hcur]]
    · rw [if_pos (by simp [jsOr, hcur])]
      rw [show jsOr (getField s2.form (modelKey c)) (firstModel (some ms))
          = getField s2.form (modelKey c) from by simp [jsOr, hcur]]
      refine congrArg some ?_
      rw [setField_self]
      rw [show validateSettings s2.form
          = validateSettings (setField s2.form (modelKey c) (getField s2.form (modelKey c)))
          from by rw [setField_self]]
      apply validateSettings_setModel_congr
      constructor
      · intro ha
        exfalso
        by_cases hfm : firstModel (some ms) = "" <;> simp [jsOr, hfm, hcur] at ha <;> exact hcur ha
      · intro hb
        exact absurd hb hcur

theorem updfc_form_spec (s2 : ComponentState) (c : ChatBot) (ms : List String)
    (f : SettingsFormData) (hf : s2.form = f)
    (hv : (getVal s2.validation c).status = ValidationStatus.success)
    (hm : getModels s2.models c = some ms)
    (he : s2.emittedValidation = some (validateSettings
      (setField f (modelKey c)
        (jsOr (firstModel (some ms)) (getField f (modelKey c)))))) :
    (getField f (modelKey c) ≠ "" →
       (updateFormConfig c s2).form = f) ∧
    (getField f (modelKey c) = "" →
       getField (updateFormConfig c s2).form (modelKey c) = firstModel (some ms)) ∧
    (getVal (updateFormConfig c s2).validation c).status = ValidationStatus.success ∧
    getModels (updateFormConfig c s2).models c = some ms ∧
    (updateFormConfig c s2).emittedValidation
      = some (validateSettings (updateFormConfig c s2).form) := by
  subst hf
  exact updfc_success_spec s2 c ms hv hm he

theorem resolveFetch_spec {st : ComponentState} {rid : Nat} {ms : List String} {r0 : Request}
    (hfind : findRequest st.requests rid = some r0)
    (hab : r0.aborted = false) (hcomp : r0.completed = false) :
    (getField st.form (modelKey r0.chatb) ≠ "" →
       (resolveFetch rid ms st).form = st.form) ∧
    (getField st.form (modelKey r0.chatb) = "" →
       getField (resolveFetch rid ms st).form (modelKey r0.chatb) = firstModel (some ms)) ∧
    (getVal (resolveFetch rid ms st).validation r0.chatb).status = ValidationStatus.success ∧
    getModels (resolveFetch rid ms st).models r0.chatb = some ms ∧
    (resolveFetch rid ms st).emittedValidation
      = some (validateSettings (resolveFetch rid ms st).form) := by
  unfold resolveFetch
  rw [hfind]
  dsimp only
  rw [if_pos ⟨hab, hcomp⟩]
  refine updfc_form_spec _ r0.chatb ms st.form rfl ?_ ?_ rfl
  · dsimp only [emitValidation]
    rw [getVal_setVal_same]
    rfl
  · dsimp only [emitValidation]
    rw [getModels_setModels_same]

theorem updfc_nonsuccess_emitted (s2 : ComponentState) (c : ChatBot)
    (hv : (getVal s2.validation c).status ≠ ValidationStatus.success)
    (he : s2.emittedValidation = some (validateSettings s2.form)) :
    (updateFormConfig c s2).emittedValidation
      = some (validateSettings (updateFormConfig c s2).form) := by
  rw [updateFormConfig_emitted, updateFormConfig_form_nonsuccess hv, he]

theorem failFetch_emitted {st : ComponentState} {rid : Nat} {msg : String} {r0 : Request}
    (hfind : findRequest st.requests rid = some r0)
    (hab : r0.aborted = false) (hcomp : r0.completed = false)
    (hmodels : getModels st.models r0.chatb = some []) :
    (failFetch rid msg st).emittedValidation
      = some (validateSettings (failFetch rid msg st).form) := by
  unfold failFetch
  rw [hfind]
  dsimp only
  rw [if_pos ⟨hab, hcomp⟩]
  refine updfc_nonsuccess_emitted _ r0.chatb ?_ ?_
  · dsimp only [emitValidation]
    split <;>
      (dsimp only; rw [getVal_setVal_same]; simp [updateModelValidation])
  · dsimp only [emitValidation]
    refine congrArg some ?_
    split <;>
      (dsimp only
       rw [hmodels]
       rw [show firstModel (some ([] : List String)) = "" from rfl]
       rw [show ∀ x : String, jsOr "" x = x from fun x => rfl]
       rw [setField_self])

/-- Claim C5: after a successful fetch the model field of the provider
adopts the first returned model exactly when it was empty, and the
emitted validity is the validator run on the resulting form; after a hard
failure of a live fetch in any reachable state, the emitted validity is
again the validator run on the resulting form. -/
theorem claimC5_reconcile :
    (∀ (st : ComponentState) (rid : Nat) (ms : List String) (r0 : Request),
      findRequest st.requests rid = some r0 → r0.aborted = false → r0.completed = false →
      ((getField st.form (modelKey r0.chatb) = "" →
          getField (resolveFetch rid ms st).form (modelKey r0.chatb) = firstModel (some ms)) ∧
       (getField st.form (modelKey r0.chatb) ≠ "" →
          (resolveFetch rid ms st).form = st.form) ∧
       (resolveFetch rid ms st).emittedValidation
          = some (validateSettings (resolveFetch rid ms st).form))) ∧
    (∀ (f0 : SettingsFormData) (es : List Event) (rid : Nat) (msg : String) (r0 : Request),
      findRequest (run (initState f0) es).requests rid = some r0 →
      r0.aborted = false → r0.completed = false →
      (failFetch rid msg (run (initState f0) es)).emittedValidation
        = some (validateSettings (failFetch rid msg (run (initState f0) es)).form)) := by
  constructor
  · intro st rid ms r0 hfind hab hcomp
    obtain ⟨h1, h2, h3, h4, h5⟩ := resolveFetch_spec hfind hab hcomp
    exact ⟨h2, h1, h5⟩
  · intro f0 es rid msg r0 hfind hab hcomp
    have hfull := fullInv_run _ (fullInv_initState f0) es
    exact failFetch_emitted hfind hab hcomp
      (hfull.2 r0 (List.mem_of_find?_eq_some hfind) hab hcomp)

/-- Trace of claim C5: one Local fetch pending from an empty form. -/
def c5Trace : ComponentState :=
  run (initState emptyForm) [.issue .Local noOverrides]

/-- Witness for claim C5: resolving the pending Local fetch adopts the
first returned model into the empty model field, and failing it emits
the validity of the resulting form. -/
theorem claimC5_witness :
    getField (resolveFetch 0 ["m1", "m2"] c5Trace).form (modelKey ChatBot.Local) = "m1" ∧
    (failFetch 0 "boom" c5Trace).emittedValidation
      = some (validateSettings (failFetch 0 "boom" c5Trace).form) := by
  have hfind : findRequest c5Trace.requests 0
      = some ⟨0, ChatBot.Local, "", "", "", false, false⟩ := by decide
  constructor
  · have h := (claimC5_reconcile.1 c5Trace 0 ["m1", "m2"]
      ⟨0, ChatBot.Local, "", "", "", false, false⟩ hfind rfl rfl).1 (by decide)
    simpa using h
  · exact claimC5_reconcile.2 emptyForm [.issue .Local noOverrides] 0 "boom"
      ⟨0, ChatBot.Local, "", "", "", false, false⟩ hfind rfl rfl

theorem updateFormConfig_other (c : ChatBot) (st : ComponentState) :
    (updateFormConfig c st).valueEmits = st.valueEmits ∧
    (updateFormConfig c st).pendingOllama = st.pendingOllama ∧
    (updateFormConfig c st).pendingBedrockToken = st.pendingBedrockToken ∧
    (updateFormConfig c st).pendingBedrockRegion = st.pendingBedrockRegion := by
  unfold updateFormConfig
  dsimp only
  split
  · split <;> exact ⟨rfl, rfl, rfl, rfl⟩
  · exact ⟨rfl, rfl, rfl, rfl⟩

theorem abortCatch_other (c : ChatBot) (st : ComponentState) :
    (abortCatch c st).valueEmits = st.valueEmits ∧
    (abortCatch c st).pendingOllama = st.pendingOllama ∧
    (abortCatch c st).pendingBedrockToken = st.pendingBedrockToken ∧
    (abortCatch c st).pendingBedrockRegion = st.pendingBedrockRegion := by
  unfold abortCatch emitValidation
  dsimp only
  have h := updateFormConfig_other c
  refine ⟨?_, ?_, ?_, ?_⟩
  · rw [(h _).1]
  · rw [(h _).2.1]
  · rw [(h _).2.2.1]
  · rw [(h _).2.2.2]

theorem issueFetch_obs (chatbot : ChatBot) (ov : FetchOverrides) (st : ComponentState) :
    (issueFetch chatbot ov st).requests.length = st.requests.length + 1 ∧
    (∃ r, r ∈ (issueFetch chatbot ov st).requests ∧ r.chatb = chatbot ∧ r.rid = st.nextId ∧
      r.url = (computeRequest chatbot ov st.form st.nextId).url ∧
      r.bearerToken = (computeRequest chatbot ov st.form st.nextId).bearerToken ∧
      r.region = (computeRequest chatbot ov st.form st.nextId).region) ∧
    getModels (issueFetch chatbot ov st).models chatbot = some [] ∧
    (issueFetch chatbot ov st).form = st.form ∧
    (issueFetch chatbot ov st).valueEmits = st.valueEmits := by
  unfold issueFetch
  dsimp only
  have hreq := computeRequest_rid chatbot ov st.form st.nextId
  set req := computeRequest chatbot ov st.form st.nextId with hreqdef
  have hreqchatb : req.chatb = chatbot := by
    rw [hreqdef]; cases chatbot <;> rfl
  have hmemreq : req ∈ st.requests ++ [req] := by simp
  split
  · next orid heq =>
    split
    · next r0 hfind =>
      split
      · next hr0live =>
        refine ⟨?_, ?_, ?_, ?_, ?_⟩
        · rw [(abortCatch_async _ _).1]
          dsimp only
          unfold markAbortedCompleted
          rw [List.length_map, List.length_append]
          rfl
        · refine ⟨(fun r => if r.rid == orid
              then { r with aborted := true, completed := true } else r) req,
              ?_, ?_, ?_, ?_, ?_, ?_⟩
          · rw [(abortCatch_async _ _).1]
            dsimp only
            exact List.mem_map_of_mem _ hmemreq
          · dsimp only
            by_cases hx : (req.rid == orid) = true
            · rw [if_pos hx]; exact hreqchatb
            · rw [if_neg hx]; exact hreqchatb
          · dsimp only
            by_cases hx : (req.rid == orid) = true
            · rw [if_pos hx]; exact hreq
            · rw [if_neg hx]; exact hreq
          · dsimp only
            by_cases hx : (req.rid == orid) = true
            · rw [if_pos hx]
            · rw [if_neg hx]
          · dsimp only
            by_cases hx : (req.rid == orid) = true
            · rw [if_pos hx]
            · rw [if_neg hx]
          · dsimp only
            by_cases hx : (req.rid == orid) = true
            · rw [if_pos hx]
            · rw [if_neg hx]
        · rw [(abortCatch_async _ _).2.2.2]
          dsimp only
          rw [getModels_setModels_same]
        · rw [abortCatch_form]
        · rw [(abortCatch_other _ _).1]
      · next hr0dead =>
        refine ⟨by simp, ⟨req, hmemreq, hreqchatb, hreq, rfl, rfl, rfl⟩, ?_, rfl, rfl⟩
        dsimp only
        rw [getModels_setModels_same]
    · next hfind =>
      refine ⟨by simp, ⟨req, hmemreq, hreqchatb, hreq, rfl, rfl, rfl⟩, ?_, rfl, rfl⟩
      dsimp only
      rw [getModels_setModels_same]
  · next heq =>
    refine ⟨by simp, ⟨req, hmemreq, hreqchatb, hreq, rfl, rfl, rfl⟩, ?_, rfl, rfl⟩
    dsimp only
    rw [getModels_setModels_same]

/-- Claim C7: switching the active provider updates the value in the same
step (one immediate update:value emission); it issues a model fetch for
the chosen provider exactly when that provider has no cache entry, in
which case the cache entry becomes the (empty) fetched-marker so that a
later switch back issues nothing; a switch to a provider with a cache
entry, even an empty list, leaves the requests unchanged. -/
theorem claimC7_switchFetch :
    (∀ (st : ComponentState) (p : ChatBot),
      getModels st.models p ≠ none →
      ((updateChatbotValue p st).requests = st.requests ∧
       (updateChatbotValue p st).form.activeLLM = providerString p ∧
       (updateChatbotValue p st).valueEmits = st.valueEmits + 1)) ∧
    (∀ (st : ComponentState) (p : ChatBot),
      getModels st.models p = none →
      ((updateChatbotValue p st).requests.length = st.requests.length + 1 ∧
       (∃ r, r ∈ (updateChatbotValue p st).requests ∧ r.chatb = p ∧ r.rid = st.nextId) ∧
       getModels (updateChatbotValue p st).models p = some [] ∧
       (updateChatbotValue p st).form.activeLLM = providerString p ∧
       (updateChatbotValue p st).valueEmits = st.valueEmits + 1)) ∧
    ((run (initState emptyForm)
        [.selectChatbot .OpenAI, .selectChatbot .Gemini, .selectChatbot .OpenAI]).requests.length
      = 2) := by
  have hactive : ∀ (st : ComponentState) (p : ChatBot),
      (updateValue .ACTIVE_CHATBOT (providerString p) st).form.activeLLM = providerString p := by
    intro st p
    show (normalizeForm (setField st.form .ACTIVE_CHATBOT (providerString p))).activeLLM
      = providerString p
    unfold normalizeForm
    show providerString (getActiveChatbot (setField st.form .ACTIVE_CHATBOT (providerString p)))
      = providerString p
    exact congrArg providerString (gac_matches _ p rfl)
  refine ⟨?_, ?_, by decide⟩
  · intro st p hm
    unfold updateChatbotValue
    rcases hval : getModels st.models p with _ | v
    · exact absurd hval hm
    · dsimp only
      rw [show getModels (updateValue .ACTIVE_CHATBOT (providerString p) st).models p
          = some v from hval]
      exact ⟨rfl, hactive st p, rfl⟩
  · intro st p hm
    unfold updateChatbotValue
    dsimp only
    rw [show getModels (updateValue .ACTIVE_CHATBOT (providerString p) st).models p
        = none from hm]
    dsimp only
    obtain ⟨hlen, hex, hmodels, hform, hemits⟩ :=
      issueFetch_obs p noOverrides (updateValue .ACTIVE_CHATBOT (providerString p) st)
    refine ⟨hlen, ?_, hmodels, ?_, hemits⟩
    · obtain ⟨r, hrmem, hchatb, hrid, _, _, _⟩ := hex
      exact ⟨r, hrmem, hchatb, hrid⟩
    · rw [hform]
      exact hactive st p

/-- Trace of claim C7: one Local fetch already issued, so Local has a
cache entry (the empty list) while OpenAI has none. -/
def c7Trace : ComponentState :=
  run (initState emptyForm) [.issue .Local noOverrides]

/-- Witness for claim C7: a first switch to OpenAI issues exactly one
fetch, while a switch to Local, whose cache entry exists (an empty list),
issues none. -/
theorem claimC7_witness :
    (updateChatbotValue .OpenAI (initState emptyForm)).requests.length = 1 ∧
    (updateChatbotValue .Local c7Trace).requests = c7Trace.requests := by
  constructor
  · have h := (claimC7_switchFetch.2.1 (initState emptyForm) .OpenAI (by decide)).1
    simpa using h
  · exact (claimC7_switchFetch.1 c7Trace .Local (by decide)).1

theorem issueFetch_pending (chatbot : ChatBot) (ov : FetchOverrides) (st : ComponentState) :
    (issueFetch chatbot ov st).pendingOllama = st.pendingOllama ∧
    (issueFetch chatbot ov st).pendingBedrockToken = st.pendingBedrockToken ∧
    (issueFetch chatbot ov st).pendingBedrockRegion = st.pendingBedrockRegion := by
  unfold issueFetch
  dsimp only
  split
  · next orid heq =>
    split
    · next r0 hfind =>
      split
      · next hr0live =>
        refine ⟨?_, ?_, ?_⟩
        · rw [(abortCatch_other _ _).2.1]
        · rw [(abortCatch_other _ _).2.2.1]
        · rw [(abortCatch_other _ _).2.2.2]
      · exact ⟨rfl, rfl, rfl⟩
    · exact ⟨rfl, rfl, rfl⟩
  · exact ⟨rfl, rfl, rfl⟩

theorem typeOllama_burst (st : ComponentState) (vs : List String) (v : String) :
    run st ((vs ++ [v]).map Event.typeOllama) = { st with pendingOllama := some v } := by
  induction vs generalizing st with
  | nil => rfl
  | cons a t ih => exact ih { st with pendingOllama := some a }

theorem typeBedrockToken_burst (st : ComponentState) (vs : List String) (v : String) :
    run st ((vs ++ [v]).map Event.typeBedrockToken)
      = { st with pendingBedrockToken := some v } := by
  induction vs generalizing st with
  | nil => rfl
  | cons a t ih => exact ih { st with pendingBedrockToken := some a }

theorem typeBedrockRegion_burst (st : ComponentState) (vs : List String) (v : String) :
    run st ((vs ++ [v]).map Event.typeBedrockRegion)
      = { st with pendingBedrockRegion := some v } := by
  induction vs generalizing st with
  | nil => rfl
  | cons a t ih => exact ih { st with pendingBedrockRegion := some a }

theorem flushOllama_spec (st : ComponentState) (v : String)
    (hp : st.pendingOllama = some v) :
    (step st .flushOllama).valueEmits = st.valueEmits + 1 ∧
    (step st .flushOllama).requests.length = st.requests.length + 1 ∧
    (∃ r, r ∈ (step st .flushOllama).requests ∧ r.chatb = ChatBot.Local ∧
       r.rid = st.nextId ∧ r.url = v) ∧
    (step st .flushOllama).form.ollamaUrl = v ∧
    (step st .flushOllama).pendingOllama = none := by
  simp only [step, flushOllamaUrl]
  rw [hp]
  dsimp only
  obtain ⟨hlen, hex, hmodels, hform, hemits⟩ := issueFetch_obs .Local ⟨some v, none, none⟩
    (touchValidation .Local (updateValue .OLLAMA_URL v { st with pendingOllama := none }))
  obtain ⟨hpo, hpt, hpr⟩ := issueFetch_pending .Local ⟨some v, none, none⟩
    (touchValidation .Local (updateValue .OLLAMA_URL v { st with pendingOllama := none }))
  refine ⟨?_, ?_, ?_, ?_, ?_⟩
  · rw [hemits]; rfl
  · rw [hlen]; rfl
  · obtain ⟨r, hrmem, hchatb, hrid, hurl, _, _⟩ := hex
    exact ⟨r, hrmem, hchatb, hrid, hurl⟩
  · rw [hform]
    show (normalizeForm (setField _ .OLLAMA_URL v)).ollamaUrl = v
    unfold normalizeForm
    cases hgac : getActiveChatbot (setField st.form .OLLAMA_URL v) <;> rfl
  · rw [hpo]; rfl

theorem flushBedrockToken_spec (st : ComponentState) (v : String)
    (hp : st.pendingBedrockToken = some v) :
    (step st .flushBedrockTokenEv).valueEmits = st.valueEmits + 1 ∧
    (step st .flushBedrockTokenEv).requests.length = st.requests.length + 1 ∧
    (∃ r, r ∈ (step st .flushBedrockTokenEv).requests ∧ r.chatb = ChatBot.Bedrock ∧
       r.rid = st.nextId ∧ r.bearerToken = v) ∧
    (step st .flushBedrockTokenEv).form.awsBearerTokenBedrock = v ∧
    (step st .flushBedrockTokenEv).pendingBedrockToken = none := by
  simp only [step, flushBedrockToken]
  rw [hp]
  dsimp only
  obtain ⟨hlen, hex, hmodels, hform, hemits⟩ := issueFetch_obs .Bedrock ⟨none, some v, none⟩
    (touchValidation .Bedrock
      (updateValue .AWS_BEARER_TOKEN_BEDROCK v { st with pendingBedrockToken := none }))
  obtain ⟨hpo, hpt, hpr⟩ := issueFetch_pending .Bedrock ⟨none, some v, none⟩
    (touchValidation .Bedrock
      (updateValue .AWS_BEARER_TOKEN_BEDROCK v { st with pendingBedrockToken := none }))
  refine ⟨?_, ?_, ?_, ?_, ?_⟩
  · rw [hemits]; rfl
  · rw [hlen]; rfl
  · obtain ⟨r, hrmem, hchatb, hrid, _, htok, _⟩ := hex
    exact ⟨r, hrmem, hchatb, hrid, htok⟩
  · rw [hform]
    show (normalizeForm (setField _ .AWS_BEARER_TOKEN_BEDROCK v)).awsBearerTokenBedrock = v
    unfold normalizeForm
    cases hgac : getActiveChatbot (setField st.form .AWS_BEARER_TOKEN_BEDROCK v) <;> rfl
  · rw [hpt]; rfl

theorem flushBedrockRegion_spec (st : ComponentState) (v : String)
    (hp : st.pendingBedrockRegion = some v) (hold : st.form.awsRegion ≠ "") :
    (step st .flushBedrockRegionEv).valueEmits = st.valueEmits + 1 ∧
    (step st .flushBedrockRegionEv).requests.length = st.requests.length + 1 ∧
    (∃ r, r ∈ (step st .flushBedrockRegionEv).requests ∧ r.chatb = ChatBot.Bedrock ∧
       r.rid = st.nextId ∧ r.region = v) ∧
    (step st .flushBedrockRegionEv).form.awsRegion = v ∧
    (step st .flushBedrockRegionEv).pendingBedrockRegion = none := by
  simp only [step, flushBedrockRegion]
  rw [hp]
  dsimp only
  have hregion : (updateValue .AWS_REGION v { st with pendingBedrockRegion := none }).form.awsRegion
      = v := by
    show (normalizeForm (setField _ .AWS_REGION v)).awsRegion = v
    unfold normalizeForm
    cases hgac : getActiveChatbot (setField st.form .AWS_REGION v) <;> rfl
  rw [if_pos hold]
  obtain ⟨hlen, hex, hmodels, hform, hemits⟩ := issueFetch_obs .Bedrock ⟨none, none, some v⟩
    (touchValidation .Bedrock (updateValue .AWS_REGION v { st with pendingBedrockRegion := none }))
  obtain ⟨hpo, hpt, hpr⟩ := issueFetch_pending .Bedrock ⟨none, none, some v⟩
    (touchValidation .Bedrock (updateValue .AWS_REGION v { st with pendingBedrockRegion := none }))
  refine ⟨?_, ?_, ?_, ?_, ?_⟩
  · rw [hemits]; rfl
  · rw [hlen]; rfl
  · obtain ⟨r, hrmem, hchatb, hrid, _, _, hreg⟩ := hex
    exact ⟨r, hrmem, hchatb, hrid, hreg⟩
  · rw [hform]
    exact hregion
  · rw [hpr]; rfl

/-- Counterexample to claim C8 as stated: selecting a Bedrock region for
the first time on a form whose region is empty is a debounced one-edit
burst that produces its one trailing invocation and one emitted value
update, but no model fetch at all — the code guards the fetch on the
region read back from the formData view, which at that point still holds
the pre-invocation (empty) region. -/
theorem claimC8_counterexample :
    (run (initState emptyForm)
      [.typeBedrockRegion "us-east-1", .flushBedrockRegionEv]).requests = [] ∧
    (run (initState emptyForm)
      [.typeBedrockRegion "us-east-1", .flushBedrockRegionEv]).valueEmits = 1 := by
  constructor <;> decide

/-- Claim C8 (amended): a burst of edits to a debounced field within the
window is coalesced into the pending slot without any emission or fetch
(no leading edge); the trailing flush then produces exactly one emitted
value update and, for the Ollama URL and the Bedrock token, exactly one
model fetch carrying the last provided value; for the Bedrock region the
flush emits once but fetches exactly when the region held by the form
BEFORE the flush is non-empty (the guard reads the formData view before
the value echo lands, so a first region selection from an empty region
emits without fetching); edits to all other fields update and validate
synchronously without any fetch. -/
theorem claimC8_debounce :
    (∀ (st : ComponentState) (vs : List String) (v : String),
      ((run st ((vs ++ [v]).map Event.typeOllama)).requests = st.requests ∧
       (run st ((vs ++ [v]).map Event.typeOllama)).valueEmits = st.valueEmits ∧
       (run st ((vs ++ [v]).map Event.typeOllama)).form = st.form ∧
       (run st ((vs ++ [v]).map Event.typeOllama)).pendingOllama = some v)) ∧
    (∀ (st : ComponentState) (v : String), st.pendingOllama = some v →
      ((step st .flushOllama).valueEmits = st.valueEmits + 1 ∧
       (step st .flushOllama).requests.length = st.requests.length + 1 ∧
       (∃ r, r ∈ (step st .flushOllama).requests ∧ r.chatb = ChatBot.Local ∧
          r.rid = st.nextId ∧ r.url = v) ∧
       (step st .flushOllama).form.ollamaUrl = v ∧
       (step st .flushOllama).pendingOllama = none)) ∧
    (∀ (st : ComponentState) (v : String), st.pendingBedrockToken = some v →
      ((step st .flushBedrockTokenEv).valueEmits = st.valueEmits + 1 ∧
       (step st .flushBedrockTokenEv).requests.length = st.requests.length + 1 ∧
       (∃ r, r ∈ (step st .flushBedrockTokenEv).requests ∧ r.chatb = ChatBot.Bedrock ∧
          r.rid = st.nextId ∧ r.bearerToken = v) ∧
       (step st .flushBedrockTokenEv).form.awsBearerTokenBedrock = v ∧
       (step st .flushBedrockTokenEv).pendingBedrockToken = none)) ∧
    (∀ (st : ComponentState) (v : String), st.pendingBedrockRegion = some v →
      st.form.awsRegion ≠ "" →
      ((step st .flushBedrockRegionEv).valueEmits = st.valueEmits + 1 ∧
       (step st .flushBedrockRegionEv).requests.length = st.requests.length + 1 ∧
       (∃ r, r ∈ (step st .flushBedrockRegionEv).requests ∧ r.chatb = ChatBot.Bedrock ∧
          r.rid = st.nextId ∧ r.region = v))) ∧
    (∀ (st : ComponentState) (v : String), st.pendingBedrockRegion = some v →
      st.form.awsRegion = "" →
      ((step st .flushBedrockRegionEv).requests = st.requests ∧
       (step st .flushBedrockRegionEv).valueEmits = st.valueEmits + 1)) ∧
    (∀ (st : ComponentState) (k : SettingsKey) (v2 : String),
      ((step st (.editField k v2)).requests = st.requests ∧
       (step st (.editField k v2)).valueEmits = st.valueEmits + 1 ∧
       (step st (.editField k v2)).emittedValidation
         = some (validateSettings (setField st.form k v2)))) := by
  refine ⟨?_, ?_, ?_, ?_, ?_, ?_⟩
  · intro st vs v
    rw [typeOllama_burst]
    exact ⟨rfl, rfl, rfl, rfl⟩
  · intro st v hp
    exact flushOllama_spec st v hp
  · intro st v hp
    exact flushBedrockToken_spec st v hp
  · intro st v hp hold
    obtain ⟨h1, h2, h3, _, _⟩ := flushBedrockRegion_spec st v hp hold
    exact ⟨h1, h2, h3⟩
  · intro st v hp hold
    simp only [step, flushBedrockRegion]
    rw [hp]
    dsimp only
    rw [if_neg (by rw [hold]; simp)]
    exact ⟨rfl, rfl⟩
  · intro st k v2
    exact ⟨rfl, rfl, rfl⟩

/-- Witness for claim C8 on a concrete burst: five Ollama URL edits
within the window followed by the trailing flush produce one value
emission and one Local fetch carrying the last URL. -/
theorem claimC8_witness :
    (run (initState emptyForm)
      (([ "u1", "u2", "u3", "u4" ] ++ ["u5"]).map Event.typeOllama)).requests = [] ∧
    (step (run (initState emptyForm)
      (([ "u1", "u2", "u3", "u4" ] ++ ["u5"]).map Event.typeOllama)) .flushOllama).requests.length
      = 1 ∧
    (step (run (initState emptyForm)
      (([ "u1", "u2", "u3", "u4" ] ++ ["u5"]).map Event.typeOllama)) .flushOllama).form.ollamaUrl
      = "u5" := by
  have hburst := (claimC8_debounce.1 (initState emptyForm) ["u1", "u2", "u3", "u4"] "u5")
  have hflush := claimC8_debounce.2.1
    (run (initState emptyForm) ((["u1", "u2", "u3", "u4"] ++ ["u5"]).map Event.typeOllama))
    "u5" hburst.2.2.2
  refine ⟨hburst.1, ?_, hflush.2.2.2.1⟩
  rw [hflush.2.1, hburst.1]
  rfl

/-- Counterexample to claim C4 as stated: with full permissions and all
persist steps succeeding, a failing redeploy step is swallowed by the
try/catch inside redeployAiAgent — the save surfaces no error message and
reports success, instead of surfacing exactly one error. -/
theorem claimC4_counterexample :
    save ⟨true, true⟩ ⟨true, true, true, false⟩
      = ⟨[SaveAction.persistSettings, SaveAction.persistAuthSecrets,
          SaveAction.persistCRDs, SaveAction.redeploy], 0, true⟩ := by
  rfl

/-- Claim C4 (amended): the save pipeline attempts its sub-operations in
the fixed order settings, auth secrets, config CRDs, redeploy, gated on
the permissions; with secret-create but not CRD-create permission it
persists settings and redeploys without touching CRDs; a failure of any
persist step aborts the remaining steps, surfaces exactly one error and
reports failure while leaving the already attempted steps in place (no
rollback); a redeploy failure, however, is logged and swallowed: the save
surfaces no error and reports success. -/
theorem claimC4_savePipeline :
    ∀ (cs ck sOk aOk cOk rOk : Bool),
      ((save ⟨cs, ck⟩ ⟨sOk, aOk, cOk, rOk⟩).actions = [] ∨
       (save ⟨cs, ck⟩ ⟨sOk, aOk, cOk, rOk⟩).actions = [SaveAction.persistSettings] ∨
       (save ⟨cs, ck⟩ ⟨sOk, aOk, cOk, rOk⟩).actions
         = [SaveAction.persistSettings, SaveAction.redeploy] ∨
       (save ⟨cs, ck⟩ ⟨sOk, aOk, cOk, rOk⟩).actions
         = [SaveAction.persistSettings, SaveAction.persistAuthSecrets] ∨
       (save ⟨cs, ck⟩ ⟨sOk, aOk, cOk, rOk⟩).actions
         = [SaveAction.persistSettings, SaveAction.persistAuthSecrets, SaveAction.persistCRDs] ∨
       (save ⟨cs, ck⟩ ⟨sOk, aOk, cOk, rOk⟩).actions
         = [SaveAction.persistSettings, SaveAction.persistAuthSecrets, SaveAction.persistCRDs,
            SaveAction.redeploy]) ∧
      (cs = true → ck = false → sOk = true →
        save ⟨cs, ck⟩ ⟨sOk, aOk, cOk, rOk⟩
          = ⟨[SaveAction.persistSettings, SaveAction.redeploy], 0, true⟩) ∧
      (cs = true → sOk = false →
        save ⟨cs, ck⟩ ⟨sOk, aOk, cOk, rOk⟩ = ⟨[SaveAction.persistSettings], 1, false⟩) ∧
      (cs = true → ck = true → sOk = true → aOk = false →
        save ⟨cs, ck⟩ ⟨sOk, aOk, cOk, rOk⟩
          = ⟨[SaveAction.persistSettings, SaveAction.persistAuthSecrets], 1, false⟩) ∧
      (cs = true → ck = true → sOk = true → aOk = true → cOk = false →
        save ⟨cs, ck⟩ ⟨sOk, aOk, cOk, rOk⟩
          = ⟨[SaveAction.persistSettings, SaveAction.persistAuthSecrets,
              SaveAction.persistCRDs], 1, false⟩) ∧
      (cs = true → ck = true → sOk = true → aOk = true → cOk = true →
        ((save ⟨cs, ck⟩ ⟨sOk, aOk, cOk, rOk⟩).errorsSurfaced = 0 ∧
         (save ⟨cs, ck⟩ ⟨sOk, aOk, cOk, rOk⟩).succeeded = true ∧
         (save ⟨cs, ck⟩ ⟨sOk, aOk, cOk, rOk⟩).actions.getLast? = some SaveAction.redeploy)) := by
  intro cs ck sOk aOk cOk rOk
  refine ⟨?_, ?_, ?_, ?_, ?_, ?_⟩ <;>
    (cases cs <;> cases ck <;> cases sOk <;> cases aOk <;> cases cOk <;> cases rOk <;> decide)

/-- Witness for claim C4: with secret-create permission only, the save
persists settings and redeploys; with a failing settings save it attempts
only the settings step, surfaces one error and reports failure. -/
theorem claimC4_witness :
    save ⟨true, false⟩ ⟨true, true, true, true⟩
      = ⟨[SaveAction.persistSettings, SaveAction.redeploy], 0, true⟩ ∧
    save ⟨true, true⟩ ⟨false, true, true, true⟩
      = ⟨[SaveAction.persistSettings], 1, false⟩ := by
  constructor
  · exact (claimC4_savePipeline true false true true true true).2.1 rfl rfl rfl
  · exact (claimC4_savePipeline true true false true true true).2.2.1 rfl rfl

theorem getVal_setVal_other (m : ValidationMap) (p q : ChatBot)
    (x : ModelValidationPayload) (h : q ≠ p) :
    getVal (setVal m p x) q = getVal m q := by
  cases p <;> cases q <;> first | rfl | exact absurd rfl h

/-- The validation-map invariant of claim C10. -/
def MsgInvMap (m : ValidationMap) : Prop :=
  ∀ p, (getVal m p).message ≠ "" → (getVal m p).status = ValidationStatus.error

theorem msgInvMap_setVal {m : ValidationMap} (h : MsgInvMap m) (c : ChatBot)
    (pay : UpdatePayload)
    (hgood : pay.message = none ∨ pay.status = some ValidationStatus.error) :
    MsgInvMap (setVal m c (updateModelValidation (getVal m c) pay)) := by
  intro p hmsg
  by_cases hpc : p = c
  · subst hpc
    rw [getVal_setVal_same] at hmsg ⊢
    rcases hgood with hm | hs
    · exfalso
      apply hmsg
      unfold updateModelValidation
      rw [hm]
      rfl
    · unfold updateModelValidation
      rw [hs]
      rfl
  · rw [getVal_setVal_other _ _ _ _ hpc] at hmsg ⊢
    exact h p hmsg

theorem abortCatch_vmap (c : ChatBot) (st : ComponentState) :
    (abortCatch c st).validation
      = setVal st.validation c
          (updateModelValidation (getVal st.validation c) ⟨some .validating, none, none⟩) := by
  unfold abortCatch
  dsimp only
  rw [(updateFormConfig_async _ _).2.2.2.2]
  rfl

theorem msgInv_issueFetch {st : ComponentState} (h : MsgInvMap st.validation)
    (chatbot : ChatBot) (ov : FetchOverrides) :
    MsgInvMap (issueFetch chatbot ov st).validation := by
  unfold issueFetch
  dsimp only
  split
  · next orid heq =>
    split
    · next r0 hfind =>
      split
      · next hr0live =>
        rw [abortCatch_vmap]
        dsimp only
        exact msgInvMap_setVal (msgInvMap_setVal h chatbot _ (Or.inl rfl)) r0.chatb _ (Or.inl rfl)
      · exact msgInvMap_setVal h chatbot _ (Or.inl rfl)
    · exact msgInvMap_setVal h chatbot _ (Or.inl rfl)
  · exact msgInvMap_setVal h chatbot _ (Or.inl rfl)

theorem msgInv_resolveFetch {st : ComponentState} (h : MsgInvMap st.validation)
    (rid : Nat) (ms : List String) : MsgInvMap (resolveFetch rid ms st).validation := by
  unfold resolveFetch
  split
  · next r0 hfind =>
    split
    · next hr0live =>
      rw [(updateFormConfig_async _ _).2.2.2.2]
      dsimp only [emitValidation]
      exact msgInvMap_setVal h r0.chatb _ (Or.inl rfl)
    · exact h
  · exact h

theorem msgInv_failFetch {st : ComponentState} (h : MsgInvMap st.validation)
    (rid : Nat) (msg : String) : MsgInvMap (failFetch rid msg st).validation := by
  unfold failFetch
  split
  · next r0 hfind =>
    split
    · next hr0live =>
      rw [(updateFormConfig_async _ _).2.2.2.2]
      dsimp only [emitValidation]
      split <;>
        exact msgInvMap_setVal h r0.chatb _ (Or.inr rfl)
    · exact h
  · exact h

theorem msgInv_step {st : ComponentState} (h : MsgInvMap st.validation) (e : Event) :
    MsgInvMap (step st e).validation := by
  cases e with
  | issue chatbot ov => exact msgInv_issueFetch h chatbot ov
  | resolve rid ms => exact msgInv_resolveFetch h rid ms
  | fail rid msg => exact msgInv_failFetch h rid msg
  | selectChatbot chatbot =>
    simp only [step, updateChatbotValue]
    split
    · have hup : MsgInvMap (updateValue .ACTIVE_CHATBOT (providerString chatbot) st).validation := h
      exact msgInv_issueFetch hup chatbot noOverrides
    · exact h
  | typeOllama v => exact h
  | flushOllama =>
    simp only [step, flushOllamaUrl]
    split
    · exact h
    · next v hv =>
      have hup : MsgInvMap
          (updateValue .OLLAMA_URL v { st with pendingOllama := none }).validation := h
      exact msgInv_issueFetch (msgInvMap_setVal hup ChatBot.Local _ (Or.inl rfl)) _ _
  | typeBedrockToken v => exact h
  | flushBedrockTokenEv =>
    simp only [step, flushBedrockToken]
    split
    · exact h
    · next v hv =>
      have hup : MsgInvMap
          (updateValue .AWS_BEARER_TOKEN_BEDROCK v { st with pendingBedrockToken := none }).validation := h
      exact msgInv_issueFetch (msgInvMap_setVal hup ChatBot.Bedrock _ (Or.inl rfl)) _ _
  | typeBedrockRegion v => exact h
  | flushBedrockRegionEv =>
    simp only [step, flushBedrockRegion]
    split
    · exact h
    · next v hv =>
      have hup : MsgInvMap
          (updateValue .AWS_REGION v { st with pendingBedrockRegion := none }).validation := h
      split
      · exact msgInv_issueFetch (msgInvMap_setVal hup ChatBot.Bedrock _ (Or.inl rfl)) _ _
      · exact h
  | editField k v => exact h
  | refresh =>
    simp only [step, refreshModels]
    split
    · next p hp =>
      exact msgInv_issueFetch (msgInvMap_setVal h p _ (Or.inl rfl)) _ _
    · exact h

/-- Claim C10: on component creation every provider starts at validating
with an empty message and untouched, and along every event sequence the
validation message of a provider is non-empty only when its status is
error, because updateModelValidation resets the message on every call
that does not pass one. -/
theorem claimC10_messageInvariant :
    (∀ (f0 : SettingsFormData) (p : ChatBot),
      getVal (initState f0).validation p
        = { status := ValidationStatus.validating, message := "", touched := false }) ∧
    (∀ (f0 : SettingsFormData) (es : List Event) (p : ChatBot),
      (getVal (run (initState f0) es).validation p).message ≠ "" →
      (getVal (run (initState f0) es).validation p).status = ValidationStatus.error) := by
  constructor
  · intro f0 p
    cases p <;> rfl
  · intro f0 es
    have hrun : ∀ (st : ComponentState), MsgInvMap st.validation →
        MsgInvMap (run st es).validation := by
      induction es with
      | nil => exact fun st h => h
      | cons e es ih => exact fun st h => ih (step st e) (msgInv_step h e)
    exact hrun (initState f0) (fun p hmsg => absurd (by cases p <;> rfl) hmsg)

/-- Witness for claim C10: after a Local fetch fails with a message, the
invariant instantiated at that trace forces the Local status to error. -/
theorem claimC10_witness :
    (getVal (run (initState emptyForm)
      [.issue .Local noOverrides, .fail 0 "boom"]).validation ChatBot.Local).message = "boom" ∧
    (getVal (run (initState emptyForm)
      [.issue .Local noOverrides, .fail 0 "boom"]).validation ChatBot.Local).status
      = ValidationStatus.error := by
  refine ⟨by decide, ?_⟩
  exact claimC10_messageInvariant.2 emptyForm [.issue .Local noOverrides, .fail 0 "boom"]
    ChatBot.Local (by decide)
